import Mathlib

/-!
Shallow embedding of the spatial coverage and route-construction engine of the
stores repository (src/kml-generator.js, src/grid-search-example.js and the
hexagonal-grid module src/unnamed/part_001), with proofs settling claims
C1 to C10.

Conventions used throughout:
* JS numbers are modelled as rationals wherever the code only performs field
  arithmetic and comparisons, and as reals where the code calls trigonometric
  functions (Math.sin, Math.cos, Math.atan2, Math.sqrt).
* A JS field that may be undefined is modelled with Option; JS falsiness of a
  number is the test against 0, and falsiness of a string identity is the test
  against the empty string.
* Fallible external calls (the point-search service, GDAL geometry predicates)
  are modelled as Except-valued or Option-valued function parameters.
-/

namespace Stores

/-- A store record as returned by the point-search service (kml-generator.js).
The field `map_store_id` is the stable identity; the empty string models a
missing (falsy) id. The field `service_id` is the optional service-tag array
checked by `filterRpayStores`; `attrs` is the opaque attribute bag that detail
lookups merge into. Coordinates are modelled as rationals. -/
structure Store where
  map_store_id : String
  store_name : String
  latitude : Rat
  longitude : Rat
  service_id : Option (List String)
  postal_code : Option String
  attrs : List (String × String)
deriving DecidableEq, Repr

/-- GeoJSON geometry restricted to the two constructors that
`calculateCentroid` and the tessellation pipeline handle. A polygon is a list
of rings, a multipolygon a list of polygons; a ring is a list of (lon, lat)
pairs that is closed (first entry = last entry) for well-formed input. -/
inductive GeoJson where
  | polygon : List (List (Rat × Rat)) → GeoJson
  | multiPolygon : List (List (List (Rat × Rat))) → GeoJson
deriving DecidableEq, Repr

/-- Vertex mean of a coordinate list, as computed by the Polygon branch of
`calculateCentroid` (kml-generator.js lines 263-271): the sums of x and of y
divided by the number of list entries. Note that for a closed GeoJSON ring
this counts the closing duplicate vertex. Division by zero on the empty list
yields 0 in Rat where JS yields NaN; no claim touches the empty ring. -/
def vertexMean (coords : List (Rat × Rat)) : Rat × Rat :=
  ((coords.map Prod.fst).sum / coords.length,
   (coords.map Prod.snd).sum / coords.length)

/-- The signed shoelace sum of the MultiPolygon branch of `calculateCentroid`
(kml-generator.js lines 279-282): the sum over i of
x_i * y_j - x_j * y_i where j is the predecessor index with wraparound
(the JS loop starts with j = length - 1). Pairing each entry with its
predecessor is expressed by zipping the ring with its right rotation. -/
def shoelaceSum (ring : List (Rat × Rat)) : Rat :=
  ((ring.zip (ring.rotate (ring.length - 1))).map
    (fun pq => pq.1.1 * pq.2.2 - pq.2.1 * pq.1.2)).sum

/-- Absolute shoelace area, matching `area = Math.abs(area / 2)` in
`calculateCentroid` (kml-generator.js line 283). -/
def shoelaceAbsArea (ring : List (Rat × Rat)) : Rat :=
  |shoelaceSum ring / 2|

/-- Embedding of `calculateCentroid` (kml-generator.js lines 262-300).
For a Polygon it returns the vertex mean of the first ring; for a
MultiPolygon it scans all constituent polygons keeping the one whose first
ring has the strictly largest absolute shoelace area (the scan starts from
the first polygon with recorded maximum 0 and updates only on a strict
increase), then returns the vertex mean of the first ring of the kept
polygon. The result is an (x, y) = (lon, lat) pair. -/
def calculateCentroid : GeoJson → Rat × Rat
  | .polygon rings => vertexMean (rings.headD [])
  | .multiPolygon polys =>
    let chosen := (polys.foldl
      (fun best poly =>
        let area := shoelaceAbsArea (poly.headD [])
        if best.2 < area then (poly, area) else best)
      (polys.headD [], 0)).1
    vertexMean (chosen.headD [])

/-- Consecutive-edge list of a ring: each entry paired with its successor.
For a closed ring (first = last) this enumerates every boundary segment. -/
def ringEdges (ring : List (Rat × Rat)) : List ((Rat × Rat) × (Rat × Rat)) :=
  ring.zip (ring.drop 1)

/-- Decides whether point p lies on the closed segment from a to b:
zero cross product (collinearity) together with the bounding-box test. -/
def onSegment (p a b : Rat × Rat) : Bool :=
  decide ((b.1 - a.1) * (p.2 - a.2) - (b.2 - a.2) * (p.1 - a.1) = 0 ∧
    min a.1 b.1 ≤ p.1 ∧ p.1 ≤ max a.1 b.1 ∧
    min a.2 b.2 ≤ p.2 ∧ p.2 ≤ max a.2 b.2)

/-- One edge step of the standard even-odd ray cast: the edge from a to b
crosses the horizontal ray going right from p. -/
def crossesRay (p a b : Rat × Rat) : Bool :=
  (decide (p.2 < a.2) != decide (p.2 < b.2)) &&
    decide (p.1 < (b.1 - a.1) * (p.2 - a.2) / (b.2 - a.2) + a.1)

/-- Modelled from the spec: the boundary-inclusive point-in-polygon
predicate `contains(polygon, point)`. The source delegates containment to
`gdal.Geometry.contains`, external library code that is not part of this
repository, so following the words of the spec (standard ray casting,
boundary points count as contained) this is the even-odd ray-casting test
over every ring together with an explicit on-boundary test. The point is an
(x, y) = (lon, lat) pair. -/
def containsPoint (g : GeoJson) (p : Rat × Rat) : Bool :=
  let rings : List (List (Rat × Rat)) :=
    match g with
    | .polygon rings => rings
    | .multiPolygon polys => polys.flatten
  let edges := (rings.map ringEdges).flatten
  edges.any (fun e => onSegment p e.1 e.2) ||
    (edges.countP (fun e => crossesRay p e.1 e.2)) % 2 == 1

/-- Embedding of `filterStoresByGeoJSON` (kml-generator.js lines 792-811):
with no geometry it returns the empty list; otherwise it keeps exactly the
stores whose (longitude, latitude) point the geometry contains. The JS
guard that latitude and longitude are numbers is vacuous here because the
model types coordinates as rationals; the catch-all error branch of the
source concerns WKT conversion failures in external libraries and is not
modelled. -/
def filterStoresByGeoJSON (stores : List Store) (geojson : Option GeoJson) :
    List Store :=
  match geojson with
  | none => []
  | some g => stores.filter (fun s => containsPoint g (s.longitude, s.latitude))

/-- JS Map.set on an insertion-ordered association list: update in place if
the key exists (the entry keeps its position, the value is replaced),
otherwise append at the end. -/
def jsMapSet (m : List (String × Store)) (k : String) (v : Store) :
    List (String × Store) :=
  if m.any (fun kv => kv.1 == k) then
    m.map (fun kv => if kv.1 == k then (k, v) else kv)
  else m ++ [(k, v)]

/-- Embedding of `filterRpayStores` (kml-generator.js lines 623-630): keep
stores whose service tag array exists and lists the rpay service. -/
def filterRpayStores (stores : List Store) : List Store :=
  stores.filter (fun s =>
    match s.service_id with
    | some ids => ids.contains "rpay"
    | none => false)

/-- The store-name exclusion list EXCLUDE_STORE_NAMES_CONTAINING of
kml-generator.js lines 480-485 (the source file itself shortens the list
with a comment). -/
def EXCLUDE_STORE_NAMES_CONTAINING : List String :=
  ["セブンイレブン", "ローソン", "ファミリーマート", "ミニストップ", "デイリーヤマザキ",
   "マクドナルド", "ケンタッキー", "モスバーガー", "すき家", "吉野家", "なか卯",
   "スターバックス", "ドトール", "タリーズ", "コメダ珈琲"]

/-- Embedding of `filterExcludedStores` (kml-generator.js lines 613-618):
drop stores whose name contains one of the excluded substrings. -/
def filterExcludedStores (stores : List Store) : List Store :=
  stores.filter (fun s =>
    ! EXCLUDE_STORE_NAMES_CONTAINING.any
        (fun ex => decide (ex.data <:+: s.store_name.data)))

/-- A detail payload returned by `fetchStoreDetails`: an optional postal
code together with opaque extra attributes. Modelling assumption (matching
the design notes of the spec on dynamic attribute shape): the detail payload
carries attribute data only, not a conflicting `map_store_id` or coordinates
of its own. -/
structure StoreDetails where
  postal_code : Option String
  extra : List (String × String)

/-- JS object spread for the opaque attribute bag: keys of the second bag
override existing keys in place, new keys are appended in order. -/
def jsObjectMerge (base extra : List (String × String)) :
    List (String × String) :=
  extra.foldl (fun acc kv =>
    if acc.any (fun kv2 => kv2.1 == kv.1) then
      acc.map (fun kv2 => if kv2.1 == kv.1 then kv else kv2)
    else acc ++ [kv]) base

/-- The detail-merge step of `getAllStores` (kml-generator.js lines
697-711): a successful detail lookup is spread over the store record, a
failed lookup keeps the plain record. -/
def mergeDetails (details : String → Option StoreDetails) (s : Store) : Store :=
  match details s.map_store_id with
  | none => s
  | some d =>
    { s with
      postal_code := match d.postal_code with
        | some pc => some pc
        | none => s.postal_code,
      attrs := jsObjectMerge s.attrs d.extra }

/-- The sequential probe loop of `getAllStores` (kml-generator.js lines
673-678). There is no try/catch around `fetchStoresFromAPI` here, so the
first failing probe propagates and aborts the whole call. The guard that a
result list must be non-empty before concatenation is kept from the source
(it changes nothing, concatenating the empty list being the identity). -/
def fetchLoop {E : Type} (fetch : Rat × Rat → Except E (List Store)) :
    List (Rat × Rat) → Except E (List Store)
  | [] => .ok []
  | p :: ps =>
    match fetch p with
    | .error e => .error e
    | .ok stores =>
      match fetchLoop fetch ps with
      | .error e => .error e
      | .ok rest => .ok ((if stores.length > 0 then stores else []) ++ rest)

/-- The identity-keyed dedup of `getAllStores` (kml-generator.js lines
680-687): stores with a falsy (empty) `map_store_id` are skipped entirely;
the rest go through Map.set, so a repeated identity keeps its map position
and takes the latest record (last seen wins). -/
def dedupById (stores : List Store) : List (String × Store) :=
  stores.foldl (fun m s =>
    if s.map_store_id == "" then m else jsMapSet m s.map_store_id s) []

/-- Embedding of the fetch path of `getAllStores` (kml-generator.js lines
642-718), the Probe Aggregator, for a run that misses or skips the cache:
probe every point sequentially (a failure aborts), dedup by identity with
last seen wins, keep rpay stores, drop excluded names, then merge per-store
detail payloads. The probe coordinates are passed in directly; the caller
fallback to a single centre coordinate when no centerPoints are given, and
the cache-hit path that returns previously cached bytes verbatim, live
outside these claims (the spec treats the cache as an external
collaborator). -/
def getAllStores {E : Type} (fetch : Rat × Rat → Except E (List Store))
    (points : List (Rat × Rat)) (details : String → Option StoreDetails) :
    Except E (List Store) :=
  match fetchLoop fetch points with
  | .error e => .error e
  | .ok allFetched =>
    let uniq := (dedupById allFetched).map Prod.snd
    .ok ((filterExcludedStores (filterRpayStores uniq)).map
      (mergeDetails details))

/-- Lattice points of `fetchStoresWithGridSearch` (src/grid-search-example.js
lines 15-22): a gridSize by gridSize square lattice centred on the given
coordinate with spacing GRID_SPACING = 0.01 degrees, in row-major order. -/
def gridSearchPoints (centerLat centerLng : Rat) (gridSize : Nat) :
    List (Rat × Rat) :=
  (List.range gridSize).flatMap (fun i =>
    (List.range gridSize).map (fun j =>
      (centerLat + (((i : Int) - ((gridSize / 2 : Nat) : Int) : Int) : Rat) * (1 / 100),
       centerLng + (((j : Int) - ((gridSize / 2 : Nat) : Int) : Int) : Rat) * (1 / 100))))

/-- Embedding of `fetchStoresWithGridSearch` (src/grid-search-example.js
lines 8-47): probe the lattice points in order, catch and skip a failing
probe, merge records into a last-seen-wins map (Map.set without a guard,
and with no falsy-id check), and return the values in insertion order. -/
def fetchStoresWithGridSearch {E : Type}
    (fetch : Rat × Rat → Except E (List Store))
    (centerLat centerLng : Rat) (gridSize : Nat) : List Store :=
  ((gridSearchPoints centerLat centerLng gridSize).foldl (fun m p =>
      match fetch p with
      | .error _ => m
      | .ok stores => stores.foldl (fun m2 s => jsMapSet m2 s.map_store_id s) m)
    []).map Prod.snd

/-- Direction table of the ring walk in `generateHexagonalGrid`
(src/unnamed/part_001 lines 41-48): axial-coordinate steps NE, NW, W, SW,
SE, E applied after emitting each point. -/
def hexDirections : List (Int × Int) :=
  [(0, -1), (-1, 0), (-1, 1), (0, 1), (1, 0), (1, -1)]

/-- Flattened side/step schedule of one ring walk: side index 0..5, each
repeated ring times (the two nested inner loops of the source). -/
def ringSteps (ring : Nat) : List Nat :=
  (List.range 6).flatMap (fun side => List.replicate ring side)

/-- Conversion of axial coordinates (q, r) to a (lat, lng) grid point, as in
src/unnamed/part_001 lines 34-35: lat = centerLat + q * spacing and
lng = centerLng + (r + q / 2) * spacing * cos(centerLat * pi / 180). -/
noncomputable def axialToPoint (centerLat centerLng spacing : ℝ)
    (qr : Int × Int) : ℝ × ℝ :=
  (centerLat + (qr.1 : ℝ) * spacing,
   centerLng + ((qr.2 : ℝ) + (qr.1 : ℝ) / 2) * spacing *
     Real.cos (centerLat * Real.pi / 180))

/-- The walk of one hexagon ring: emit the point of the current axial state,
then step in the direction of the current side. The getD default is never
taken, the schedule only containing side indices below 6. -/
noncomputable def ringWalk (f : Int × Int → ℝ × ℝ) :
    Int × Int → List Nat → List (ℝ × ℝ)
  | _, [] => []
  | qr, side :: rest =>
    f qr ::
      ringWalk f
        (qr.1 + (hexDirections.getD side (0, 0)).1,
         qr.2 + (hexDirections.getD side (0, 0)).2) rest

/-- Embedding of `generateHexagonalGrid` (src/unnamed/part_001 lines 16-57):
the centre point followed by the walks of rings 1..rings, each ring starting
from axial state (ring, 0). -/
noncomputable def generateHexagonalGrid (centerLat centerLng : ℝ)
    (rings : Nat) (spacing : ℝ) : List (ℝ × ℝ) :=
  (centerLat, centerLng) ::
    (List.range' 1 rings).flatMap (fun ring =>
      ringWalk (axialToPoint centerLat centerLng spacing)
        ((ring : Int), 0) (ringSteps ring))

/-- Embedding of `hexagonCount` (src/unnamed/part_001 lines 64-67). -/
def hexagonCount (rings : Nat) : Nat :=
  if rings = 0 then 1 else 1 + 3 * rings * (rings + 1)

/-- Insertion step of the dedup map of `fetchStoresWithHexagonalGrid`
(src/unnamed/part_001 lines 101-106): insert only when the key is absent,
so the first-seen record for an identity wins. There is no falsy-id check
in this aggregator. -/
def insertIfNew (m : List (String × Store)) (s : Store) :
    List (String × Store) :=
  if m.any (fun kv => kv.1 == s.map_store_id) then m
  else m ++ [(s.map_store_id, s)]

/-- One iteration of the probe loop of `fetchStoresWithHexagonalGrid`
(src/unnamed/part_001 lines 92-118): a failing probe is caught and skipped,
the records of a successful probe fold into the first-seen-wins map. -/
def probeStep {E : Type} (fetch : ℝ × ℝ → Except E (List Store))
    (m : List (String × Store)) (p : ℝ × ℝ) : List (String × Store) :=
  match fetch p with
  | .error _ => m
  | .ok stores => stores.foldl insertIfNew m

/-- The probe loop of `fetchStoresWithHexagonalGrid` (src/unnamed/part_001
lines 92-118): one probe per grid point in order, each handled by
`probeStep`. -/
def hexGridAggregate {E : Type} (fetch : ℝ × ℝ → Except E (List Store))
    (gridPoints : List (ℝ × ℝ)) : List Store :=
  (gridPoints.foldl (probeStep fetch) []).map Prod.snd

/-- Embedding of `fetchStoresWithHexagonalGrid` (src/unnamed/part_001 lines
78-126): generate the hexagonal grid for the given centre, rings and
spacing, probe every grid point in order and return the values of the
first-seen-wins dedup map. -/
noncomputable def fetchStoresWithHexagonalGrid {E : Type}
    (fetch : ℝ × ℝ → Except E (List Store))
    (centerLat centerLng : ℝ) (rings : Nat) (spacing : ℝ) : List Store :=
  hexGridAggregate fetch (generateHexagonalGrid centerLat centerLng rings spacing)

/-- A tessellation cell as produced by `generateHexagonPolygons`: the closed
ring of the hexagon geometry as (lon, lat) pairs, and the centre as a
(lat, lng) pair, matching the source record
{geometry, center: {latitude: centerY, longitude: centerX}}. -/
structure HexCell where
  ring : List (Rat × Rat)
  center : Rat × Rat
deriving DecidableEq, Repr

/-- The per-cell acceptance test of `generateHexagonPolygons`
(kml-generator.js lines 364-378): the GDAL intersects predicate must hold,
the GDAL intersection geometry must exist (be non-null) and its area must
be strictly positive. The two GDAL operations are external library code and
enter as parameters: intersects as a Boolean predicate, interArea as the
optional area of the computed intersection geometry (none models a null
intersection result). -/
def acceptCell (intersects : HexCell → GeoJson → Bool)
    (interArea : HexCell → GeoJson → Option Rat)
    (cell : HexCell) (g : GeoJson) : Bool :=
  intersects cell g &&
    match interArea cell g with
    | some a => decide (0 < a)
    | none => false

/-- Embedding of the cell-selection stage of `generateHexagonPolygons`
(kml-generator.js lines 308-389): every candidate lattice cell is kept iff
the acceptance test holds, in candidate order. The candidate enumeration (a
flat-top hexagonal lattice over the bounding box of the polygon, with
irrational sqrt 3 width factors) is passed in as a list in the row-major
lattice-scan order of the source; the selection logic is independent of it.
The surrounding try/catch of the source returns the empty list on any
internal error and never raises. -/
def generateHexagonPolygons (intersects : HexCell → GeoJson → Bool)
    (interArea : HexCell → GeoJson → Option Rat)
    (candidates : List HexCell) (g : GeoJson) : List HexCell :=
  candidates.filter (fun c => acceptCell intersects interArea c g)

/-- Embedding of the probe-coordinate computation of the area-code branch of
`main` (kml-generator.js lines 1127-1134): for every tessellation cell, push
every ring vertex except the last (the closing duplicate) as a (lat, lng)
probe point. -/
def areaCenterPoints (hexagonPolygons : List HexCell) : List (Rat × Rat) :=
  hexagonPolygons.flatMap (fun h => (h.ring.dropLast).map (fun v => (v.2, v.1)))

/-- Embedding of the probe-coordinate computation of the postal-code branch
of `main` (kml-generator.js line 1243): one probe point per cell, namely its
centre. -/
def postalCenterPoints (hexagonPolygons : List HexCell) : List (Rat × Rat) :=
  hexagonPolygons.map HexCell.center

/-- JS Math.atan2(y, x) modelled on the reals (signed zeros aside). -/
noncomputable def atan2 (y x : ℝ) : ℝ :=
  if 0 < x then Real.arctan (y / x)
  else if x < 0 then
    (if 0 ≤ y then Real.arctan (y / x) + Real.pi
     else Real.arctan (y / x) - Real.pi)
  else
    (if 0 < y then Real.pi / 2 else if y < 0 then -(Real.pi / 2) else 0)

/-- Embedding of `calculateDistance` (kml-generator.js lines 816-825), the
haversine great-circle distance with Earth radius R = 6371 km, on exact
reals. -/
noncomputable def calculateDistance (lat1 lon1 lat2 lon2 : Rat) : ℝ :=
  let R : ℝ := 6371
  let dLat : ℝ := ((lat2 : ℝ) - (lat1 : ℝ)) * Real.pi / 180
  let dLon : ℝ := ((lon2 : ℝ) - (lon1 : ℝ)) * Real.pi / 180
  let a : ℝ := Real.sin (dLat / 2) * Real.sin (dLat / 2) +
    Real.cos ((lat1 : ℝ) * Real.pi / 180) * Real.cos ((lat2 : ℝ) * Real.pi / 180) *
      (Real.sin (dLon / 2) * Real.sin (dLon / 2))
  let c : ℝ := 2 * atan2 (Real.sqrt a) (Real.sqrt (1 - a))
  R * c

/-- The nearest-store scan of `orderStoresNearestNeighbor` (kml-generator.js
lines 847-856): nearestIdx starts at 0 and nearestDist at Infinity, and each
store whose distance is strictly below the best seen so far takes over (so
on ties the earliest store keeps the slot). The Infinity sentinel is
modelled with none, every distance comparing below it, which is exact
because the haversine distances of the source are always finite. The
accumulator is (current index, best index, best distance). -/
def nearestStep {α : Type} [LinearOrder α] (d : Store → α)
    (acc : Nat × Nat × Option α) (s : Store) : Nat × Nat × Option α :=
  match acc.2.2 with
  | none => (acc.1 + 1, acc.1, some (d s))
  | some best =>
    if d s < best then (acc.1 + 1, acc.1, some (d s))
    else (acc.1 + 1, acc.2.1, some best)

/-- The scan itself: fold `nearestStep` from index 0 with no best yet, and
return the best index. -/
def nearestScan {α : Type} [LinearOrder α] (d : Store → α) (l : List Store) :
    Nat :=
  (l.foldl (nearestStep d) ((0 : Nat), (0 : Nat), (none : Option α))).2.1

/-- Recursive form of the nearest scan, carrying the best value, the best
index and the index of the next element. -/
def scanFrom {α : Type} [LinearOrder α] (d : Store → α) :
    α → Nat → Nat → List Store → Nat
  | _, bestIdx, _, [] => bestIdx
  | best, bestIdx, idx, s :: t =>
    if d s < best then scanFrom d (d s) idx (idx + 1) t
    else scanFrom d best bestIdx (idx + 1) t

/-- The index i points at the first minimum of d over l: it is in range,
no element of l is strictly closer, and every earlier element is at a
strictly different (hence larger) distance. -/
def IsFirstMin {α : Type} [LinearOrder α] (d : Store → α) (l : List Store)
    (i : Nat) : Prop :=
  ∃ hi : i < l.length,
    (∀ j (hj : j < l.length), ¬ d (l.get ⟨j, hj⟩) < d (l.get ⟨i, hi⟩)) ∧
    ∀ j (hj : j < i), d (l.get ⟨j, Nat.lt_trans hj hi⟩) ≠ d (l.get ⟨i, hi⟩)

/-- The greedy loop of `orderStoresNearestNeighbor` (kml-generator.js lines
846-862): while stores remain, splice out the store at the index found by
the nearest scan, append it and move the current endpoint onto it. Fuel is
the initial length; the none branch of the indexed lookup is never taken
when the fuel bounds the length from below. -/
def nnLoop {α : Type} [LinearOrder α] (dist : Rat → Rat → Rat → Rat → α) :
    Nat → Rat × Rat → List Store → List Store
  | 0, _, _ => []
  | fuel + 1, cur, l =>
    match l[nearestScan (fun s => dist cur.1 cur.2 s.latitude s.longitude) l]? with
    | none => []
    | some s =>
      s :: nnLoop dist fuel (s.latitude, s.longitude)
        (l.eraseIdx (nearestScan (fun t => dist cur.1 cur.2 t.latitude t.longitude) l))

/-- JS truthiness of an optional numeric argument: present and non-zero. -/
def jsTruthy (x : Option Rat) : Bool :=
  match x with
  | some v => v != 0
  | none => false

/-- JS `x || d` for an optional numeric argument. -/
def jsOr (x : Option Rat) (d : Rat) : Rat :=
  match x with
  | some v => if v = 0 then d else v
  | none => d

/-- Embedding of `orderStoresNearestNeighbor` (kml-generator.js lines
830-865), generic in the distance function (the theorems instantiate it
with `calculateDistance`): empty and singleton inputs return unchanged;
when both start arguments are truthy the greedy loop starts at the start
coordinate over all stores; otherwise the first store is emitted first and
the loop starts at its coordinate over the remaining stores. The JS
falsiness test `!startLat || !startLng` means a supplied start coordinate
equal to 0 also takes the no-start branch. -/
def orderStoresNearestNeighbor {α : Type} [LinearOrder α]
    (dist : Rat → Rat → Rat → Rat → α) (stores : List Store)
    (startLat startLng : Option Rat) : List Store :=
  match stores with
  | [] => []
  | [s] => [s]
  | s0 :: rest =>
    if jsTruthy startLat && jsTruthy startLng then
      nnLoop dist (s0 :: rest).length
        (jsOr startLat s0.latitude, jsOr startLng s0.longitude) (s0 :: rest)
    else
      s0 :: nnLoop dist rest.length (s0.latitude, s0.longitude) rest

/-- The record selection of the Tour Builder as the spec words it: the index
of the first remaining record whose distance to the current endpoint is
minimal, ties thereby breaking to the earliest record in input order. -/
def specPickIdx {α : Type} [LinearOrder α] (d : Store → α) (l : List Store) : Nat :=
  l.findIdx (fun s => l.all (fun t => ! decide (d t < d s)))

/-- The greedy loop of the Tour Builder as the spec words it: repeatedly
take the first minimal-distance record, append it, move the endpoint onto
it. -/
def specLoop {α : Type} [LinearOrder α] (dist : Rat → Rat → Rat → Rat → α) :
    Nat → Rat × Rat → List Store → List Store
  | 0, _, _ => []
  | fuel + 1, cur, l =>
    match l[specPickIdx (fun s => dist cur.1 cur.2 s.latitude s.longitude) l]? with
    | none => []
    | some s =>
      s :: specLoop dist fuel (s.latitude, s.longitude)
        (l.eraseIdx (specPickIdx (fun t => dist cur.1 cur.2 t.latitude t.longitude) l))

/-- The Tour Builder as the claim states it: with a start coordinate the
tour is the greedy walk from that coordinate over all records; without one
the first record starts the tour and the walk covers the rest. -/
def greedyTourSpec {α : Type} [LinearOrder α]
    (dist : Rat → Rat → Rat → Rat → α) (stores : List Store) :
    Option (Rat × Rat) → List Store
  | some c => specLoop dist stores.length c stores
  | none =>
    match stores with
    | [] => []
    | s :: rest => s :: specLoop dist rest.length (s.latitude, s.longitude) rest

/-- Start rule as the claim states it: any supplied pair of start
coordinates is used. -/
def claimStart (startLat startLng : Option Rat) : Option (Rat × Rat) :=
  match startLat, startLng with
  | some a, some b => some (a, b)
  | _, _ => none

/-- Start rule the code implements: the start coordinates are used only when
both are truthy, a supplied 0 falling back to the first record. -/
def codeStart (startLat startLng : Option Rat) : Option (Rat × Rat) :=
  if jsTruthy startLat && jsTruthy startLng then
    some (startLat.getD 0, startLng.getD 0)
  else none

/-- Plain squared Euclidean distance on rationals, used to exercise the
generic tour builder on concrete decidable inputs. -/
def sqDist (lat1 lon1 lat2 lon2 : Rat) : Rat :=
  (lat2 - lat1) * (lat2 - lat1) + (lon2 - lon1) * (lon2 - lon1)

/-- A minimal store record for concrete instances. -/
def mkStore (id : String) (lat lng : Rat) : Store :=
  ⟨id, id, lat, lng, some ["rpay"], none, []⟩

/-- Concatenation of the record lists of the successful probes of a
hexagonal-grid run, in probe order (the stream the first-seen-wins dedup
map of `fetchStoresWithHexagonalGrid` consumes). -/
def hexGridSuccessRecords {E : Type} (fetch : ℝ × ℝ → Except E (List Store))
    (gridPoints : List (ℝ × ℝ)) : List Store :=
  gridPoints.flatMap (fun p =>
    match fetch p with
    | .error _ => []
    | .ok stores => stores)

/-- A record for identity X as returned by the centre probe. -/
def storeX1 : Store := ⟨"X", "first payload", 1, 1, some ["rpay"], none, []⟩

/-- A different record for the same identity X, as returned by the ring
probes. -/
def storeX2 : Store := ⟨"X", "second payload", 2, 2, some ["rpay"], none, []⟩

/-- A probe function for the hexagonal grid: the centre probe returns the
first payload for identity X, every other grid point returns the second
payload for the same identity. -/
noncomputable def fetchHexCE : ℝ × ℝ → Except String (List Store) :=
  fun p => if p = (0, 0) then .ok [storeX1] else .ok [storeX2]

/-- A 4 by 4 square boundary polygon, used for concrete instances. -/
def squareGeo : GeoJson := .polygon [[(0,0),(4,0),(4,4),(0,4),(0,0)]]

/-- A concrete tessellation cell: a closed 7-point ring around centre
(0, 0), the shape `generateHexagonPolygons` produces (6 vertices plus the
closing duplicate). -/
def cell0 : HexCell :=
  ⟨[(1,0),(1,1),(0,1),(-1,0),(-1,-1),(0,-1),(1,0)], (0,0)⟩

/-- A degenerate polygon: a two-vertex ring of coincident points. -/
def degenerateGeo : GeoJson := .polygon [[(0,0),(0,0)]]

/-- A store sitting exactly on the boundary of `squareGeo`: its (lon, lat)
point (0, 2) lies on the left edge. -/
def boundaryStore : Store := mkStore "edge" 2 0

/-- A store ten degrees of latitude north of the equator. -/
def storeA : Store := mkStore "A" 10 139

/-- A store on the equator, at the same longitude. -/
def storeB : Store := mkStore "B" 0 139

theorem ringWalk_length (f : Int × Int → ℝ × ℝ) :
    ∀ (steps : List Nat) (qr : Int × Int),
      (ringWalk f qr steps).length = steps.length
  | [], _ => rfl
  | _ :: rest, qr => by
    simp only [ringWalk, List.length_cons]
    rw [ringWalk_length f rest]

theorem ringSteps_length (ring : Nat) : (ringSteps ring).length = 6 * ring := by
  simp [ringSteps, List.length_flatMap, Function.comp_def, List.map_const',
    List.sum_replicate, smul_eq_mul]
  omega

/-- C10: for every number of rings and every centre and spacing, the
hexagonal grid generator returns exactly `hexagonCount rings` points,
that is 1 + 3 * rings * (rings + 1). -/
theorem generateHexagonalGrid_length (centerLat centerLng spacing : ℝ)
    (rings : Nat) :
    (generateHexagonalGrid centerLat centerLng rings spacing).length =
      hexagonCount rings := by
  have key : ∀ n : Nat,
      ((List.range' 1 n).flatMap (fun ring =>
        ringWalk (axialToPoint centerLat centerLng spacing)
          ((ring : Int), 0) (ringSteps ring))).length = 3 * n * (n + 1) := by
    intro n
    induction n with
    | zero => simp
    | succ m ih =>
      rw [List.range'_concat, List.flatMap_append]
      simp only [List.length_append, ih, List.flatMap_cons, List.flatMap_nil,
        List.append_nil, ringWalk_length, ringSteps_length]
      ring
  cases rings with
  | zero => simp [generateHexagonalGrid, hexagonCount]
  | succ m =>
    simp only [generateHexagonalGrid, List.length_cons, key, hexagonCount,
      Nat.succ_ne_zero, if_false]
    ring

/-- C6: a candidate lattice cell is in the tessellation output iff the
intersection of the cell with the input polygon exists and has strictly
positive area; a cell whose intersection is null or has zero area (merely
touching an edge or vertex) is excluded unconditionally. The hypothesis is
the coherence guarantee of the external GDAL predicates, as the spec words
it for intersectionHasPositiveArea: an intersection of positive area
implies the intersects predicate. -/
theorem generateHexagonPolygons_mem_iff
    (intersects : HexCell → GeoJson → Bool)
    (interArea : HexCell → GeoJson → Option Rat)
    (candidates : List HexCell) (g : GeoJson) (c : HexCell)
    (hcoh : ∀ c2 a, interArea c2 g = some a → 0 < a → intersects c2 g = true)
    (hc : c ∈ candidates) :
    c ∈ generateHexagonPolygons intersects interArea candidates g ↔
      ∃ a, interArea c g = some a ∧ 0 < a := by
  simp only [generateHexagonPolygons, List.mem_filter, hc, true_and]
  cases hia : interArea c g with
  | none => simp [acceptCell, hia]
  | some a =>
    simp only [acceptCell, hia, Bool.and_eq_true, decide_eq_true_eq]
    constructor
    · rintro ⟨-, hpos⟩
      exact ⟨a, rfl, hpos⟩
    · rintro ⟨a2, ha2, hpos⟩
      obtain rfl : a = a2 := by
        exact Option.some.inj ha2
      exact ⟨hcoh c a hia hpos, hpos⟩

theorem generateHexagonPolygons_mem_iff_witness :
    (cell0 ∈ generateHexagonPolygons (fun _ _ => true)
        (fun _ _ => some (1 : Rat)) [cell0] squareGeo ↔
      ∃ a, (fun (_ : HexCell) (_ : GeoJson) => some (1 : Rat)) cell0 squareGeo
          = some a ∧ 0 < a) :=
  generateHexagonPolygons_mem_iff _ _ _ _ _ (fun _ _ _ _ => rfl) (by simp)

/-- C7 amended: handed a degenerate polygon (zero-area first ring, which by
the second conjunct covers every ring of fewer than 3 vertices), the
tessellator returns the normal empty cell list instead of failing: no
InvalidGeometry error exists in its interface, whose result is a plain
list, and the catch-all of the source also returns the empty list. The
hypothesis hsub is the geometric fact that the area of an intersection
with the polygon never exceeds the shoelace area of the polygon. -/
theorem generateHexagonPolygons_degenerate_empty
    (intersects : HexCell → GeoJson → Bool)
    (interArea : HexCell → GeoJson → Option Rat)
    (candidates : List HexCell) (rings : List (List (Rat × Rat)))
    (hdeg : shoelaceAbsArea (rings.headD []) = 0)
    (hsub : ∀ c a, interArea c (.polygon rings) = some a →
      a ≤ shoelaceAbsArea (rings.headD [])) :
    generateHexagonPolygons intersects interArea candidates (.polygon rings)
        = [] ∧
    ∀ ring : List (Rat × Rat), ring.length < 3 → shoelaceAbsArea ring = 0 := by
  constructor
  · apply List.filter_eq_nil_iff.mpr
    intro c hc
    cases hia : interArea c (.polygon rings) with
    | none => simp [acceptCell, hia]
    | some a =>
      have ha : a ≤ 0 := hdeg ▸ hsub c a hia
      simp only [acceptCell, hia, Bool.and_eq_true, decide_eq_true_eq, not_and]
      intro _
      linarith
  · intro ring h
    rcases ring with _ | ⟨a, _ | ⟨b, _ | ⟨c, t⟩⟩⟩
    · simp [shoelaceAbsArea, shoelaceSum]
    · simp only [shoelaceAbsArea, shoelaceSum, List.rotate, List.length_cons,
        List.length_nil]
      norm_num
    · simp only [shoelaceAbsArea, shoelaceSum, List.rotate]
      norm_num
    · simp only [List.length_cons] at h
      omega

theorem generateHexagonPolygons_degenerate_empty_witness :
    (generateHexagonPolygons (fun _ _ => true) (fun _ _ => some (0 : Rat))
        [cell0] (.polygon [[(0, 0), (0, 0)]]) = [] ∧
      ∀ ring : List (Rat × Rat), ring.length < 3 → shoelaceAbsArea ring = 0) :=
  generateHexagonPolygons_degenerate_empty _ _ _ _
    (by norm_num [shoelaceAbsArea, shoelaceSum, List.rotate])
    (fun c a ha => by
      simp only [Option.some.injEq] at ha
      norm_num [← ha, shoelaceAbsArea, shoelaceSum, List.rotate])

/-- C7 counterexample: a concrete degenerate polygon, a two-vertex ring of
coincident points with shoelace area 0 and fewer than 3 vertices, makes
the tessellator return the normal empty list; the claimed InvalidGeometry
failure does not occur (nothing in the code can signal it). The GDAL
parameters carry the true geometric values for this input: every
intersection with a zero-area polygon has area 0. -/
theorem generateHexagonPolygons_degenerate_counterexample :
    shoelaceAbsArea [((0 : Rat), (0 : Rat)), (0, 0)] = 0 ∧
    ([((0 : Rat), (0 : Rat)), (0, 0)] : List (Rat × Rat)).length < 3 ∧
    generateHexagonPolygons (fun _ _ => true) (fun _ _ => some (0 : Rat))
      [cell0] degenerateGeo = [] := by
  refine ⟨by norm_num [shoelaceAbsArea, shoelaceSum, List.rotate],
    by norm_num, ?_⟩
  simp [generateHexagonPolygons, acceptCell]

/-- C5 amended: in an area-code run the Aggregator is handed, per accepted
cell, the six ring vertices of the cell (every ring entry except the
closing duplicate, as (lat, lng) pairs), not one probe at the centre; the
postal-code branch is the one that hands exactly one probe per cell, the
cell centre. -/
theorem centerPoints_amended (hexs : List HexCell)
    (h7 : ∀ h ∈ hexs, h.ring.length = 7) :
    (areaCenterPoints hexs).length = 6 * hexs.length ∧
    postalCenterPoints hexs = hexs.map HexCell.center ∧
    ∀ p ∈ areaCenterPoints hexs, ∃ h ∈ hexs, (p.2, p.1) ∈ h.ring.dropLast := by
  refine ⟨?_, rfl, ?_⟩
  · induction hexs with
    | nil => simp [areaCenterPoints]
    | cons h t ih =>
      have hlen : h.ring.length = 7 := h7 h (by simp)
      have ih2 := ih (fun g hg => h7 g (by simp [hg]))
      simp only [areaCenterPoints, List.flatMap_cons, List.length_append,
        List.length_map, List.length_dropLast, hlen, List.length_cons] at *
      omega
  · intro p hp
    simp only [areaCenterPoints, List.mem_flatMap, List.mem_map] at hp
    rcases hp with ⟨h, hh, v, hv, rfl⟩
    exact ⟨h, hh, by simpa using hv⟩

theorem centerPoints_amended_witness :
    ((areaCenterPoints [cell0]).length = 6 * [cell0].length ∧
      postalCenterPoints [cell0] = [cell0].map HexCell.center ∧
      ∀ p ∈ areaCenterPoints [cell0],
        ∃ h ∈ [cell0], (p.2, p.1) ∈ h.ring.dropLast) :=
  centerPoints_amended [cell0] (by intro h hh; simp at hh; simp [hh, cell0])

/-- C5 counterexample: with one accepted cell (closed 7-point ring, centre
(0, 0)), the area-code branch hands the Aggregator 6 probe coordinates and
they are not the one-element centre list, refuting one probe per cell at
the cell centre for tessellated area-code runs. -/
theorem areaCenterPoints_counterexample :
    (areaCenterPoints [cell0]).length = 6 ∧
    postalCenterPoints [cell0] = [cell0.center] ∧
    areaCenterPoints [cell0] ≠ [cell0.center] := by
  refine ⟨by simp [areaCenterPoints, cell0], by simp [postalCenterPoints], ?_⟩
  simp [areaCenterPoints, cell0]

/-- C2: every record in the final filtered set of the Aggregator satisfies
the containment predicate (which, modelled from the spec, counts boundary
points as contained). -/
theorem filterStoresByGeoJSON_contains (stores : List Store) (g : GeoJson)
    (s : Store) (hs : s ∈ filterStoresByGeoJSON stores (some g)) :
    containsPoint g (s.longitude, s.latitude) = true := by
  simp only [filterStoresByGeoJSON] at hs
  exact (List.mem_filter.mp hs).2

theorem filterStoresByGeoJSON_contains_witness :
    containsPoint squareGeo (boundaryStore.longitude, boundaryStore.latitude)
      = true :=
  filterStoresByGeoJSON_contains [boundaryStore] squareGeo boundaryStore
    (by
      simp only [filterStoresByGeoJSON, List.mem_filter, List.mem_singleton,
        true_and]
      norm_num [containsPoint, ringEdges, onSegment, crossesRay, squareGeo,
        boundaryStore, mkStore])

/-- C8 amended: when every probe of a run fails, `getAllStores` propagates
the error of the first probe and never returns a store list, so an
all-failed run is distinguishable from an empty success; but the signal is
the transported error of the first failing probe, not a distinct
NoCoverageAchieved value (no such signal exists in the code). -/
theorem getAllStores_all_probes_fail {E : Type}
    (fetch : Rat × Rat → Except E (List Store)) (points : List (Rat × Rat))
    (details : String → Option StoreDetails) (p : Rat × Rat)
    (rest : List (Rat × Rat)) (e : E)
    (hpts : points = p :: rest)
    (hall : ∀ q ∈ points, ∃ err, fetch q = .error err)
    (hp : fetch p = .error e) :
    getAllStores fetch points details = .error e ∧
    ∀ stores, getAllStores fetch points details ≠ .ok stores := by
  subst hpts
  have hl : fetchLoop fetch (p :: rest) = .error e := by
    simp [fetchLoop, hp]
  exact ⟨by simp [getAllStores, hl], fun stores => by simp [getAllStores, hl]⟩

theorem getAllStores_all_probes_fail_witness :
    (getAllStores (fun _ => (.error "probe failed" : Except String (List Store)))
        [(0, 0), (1, 1)] (fun _ => none) = .error "probe failed" ∧
      ∀ stores, getAllStores (fun _ => (.error "probe failed" : Except String (List Store)))
        [(0, 0), (1, 1)] (fun _ => none) ≠ .ok stores) :=
  getAllStores_all_probes_fail _ _ _ (0, 0) [(1, 1)] _ rfl
    (fun _ _ => ⟨"probe failed", rfl⟩) rfl

/-- C8 counterexample: a run in which every probe fails does not return an
empty record set with a NoCoverageAchieved signal as the claim states: the
call transports the raw error of the first probe and returns no record set
at all. -/
theorem getAllStores_all_fail_counterexample :
    getAllStores (fun _ => (.error "probe failed" : Except String (List Store)))
      [(2, 2), (3, 3)] (fun _ => none) = .error "probe failed" ∧
    ∀ stores, getAllStores (fun _ => (.error "probe failed" : Except String (List Store)))
      [(2, 2), (3, 3)] (fun _ => none) ≠ .ok stores := by
  refine ⟨by simp [getAllStores, fetchLoop], fun stores => ?_⟩
  simp [getAllStores, fetchLoop]

theorem gridFold_skip_eq {E : Type}
    (fetch fetchR : Rat × Rat → Except E (List Store))
    (hR : ∀ p2, fetchR p2 = match fetch p2 with
      | .error _ => .ok []
      | .ok l => .ok l) :
    ∀ (pts : List (Rat × Rat)) (m : List (String × Store)),
      pts.foldl (fun m2 p =>
        match fetchR p with
        | .error _ => m2
        | .ok stores => stores.foldl (fun m3 s => jsMapSet m3 s.map_store_id s) m2) m =
      pts.foldl (fun m2 p =>
        match fetch p with
        | .error _ => m2
        | .ok stores => stores.foldl (fun m3 s => jsMapSet m3 s.map_store_id s) m2) m
  | [], _ => rfl
  | p :: pts, m => by
    have h := hR p
    cases hf : fetch p with
    | error e =>
      rw [hf] at h
      simp only [List.foldl_cons, h, hf, List.foldl_nil]
      exact gridFold_skip_eq fetch fetchR hR pts m
    | ok l =>
      rw [hf] at h
      simp only [List.foldl_cons, h, hf]
      exact gridFold_skip_eq fetch fetchR hR pts _

theorem fetchLoop_error {E : Type} (fetch : Rat × Rat → Except E (List Store))
    (e : E) :
    ∀ (pts1 : List (Rat × Rat)) (p : Rat × Rat) (pts2 : List (Rat × Rat)),
      (∀ q ∈ pts1, ∃ l, fetch q = .ok l) →
      fetch p = .error e →
      fetchLoop fetch (pts1 ++ p :: pts2) = .error e
  | [], p, pts2, _, hp => by simp [fetchLoop, hp]
  | q :: t, p, pts2, hok, hp => by
    obtain ⟨l, hl⟩ := hok q (by simp)
    have ih := fetchLoop_error fetch e t p pts2
      (fun r hr => hok r (by simp [hr])) hp
    simp [fetchLoop, hl, ih]

/-- C9 amended: in the helper aggregators a probe failure is caught, logged
and skipped (a failing probe behaves exactly like a probe returning zero
records, first conjunct, shown for `fetchStoresWithGridSearch`); but in
`getAllStores`, the Probe Aggregator that the pipeline actually runs, a
single probe failure aborts the entire run with that error, even when
every earlier probe succeeded and later coordinates remain (second
conjunct). -/
theorem probe_failure_scope {E : Type} :
    (∀ (fetch fetchR : Rat × Rat → Except E (List Store))
        (centerLat centerLng : Rat) (gridSize : Nat),
      (∀ p2, fetchR p2 = match fetch p2 with
        | .error _ => .ok []
        | .ok l => .ok l) →
      fetchStoresWithGridSearch fetchR centerLat centerLng gridSize =
        fetchStoresWithGridSearch fetch centerLat centerLng gridSize) ∧
    (∀ (fetch : Rat × Rat → Except E (List Store))
        (points pts1 pts2 : List (Rat × Rat)) (p : Rat × Rat)
        (details : String → Option StoreDetails) (e : E),
      points = pts1 ++ p :: pts2 →
      (∀ q ∈ pts1, ∃ l, fetch q = .ok l) →
      fetch p = .error e →
      getAllStores fetch points details = .error e) := by
  constructor
  · intro fetch fetchR cLat cLng g hR
    unfold fetchStoresWithGridSearch
    rw [gridFold_skip_eq fetch fetchR hR]
  · intro fetch points pts1 pts2 p details e hpts hok hp
    subst hpts
    have := fetchLoop_error fetch e pts1 p pts2 hok hp
    simp [getAllStores, this]

theorem probe_failure_scope_witness :
    (fetchStoresWithGridSearch (fun _ => (.ok [] : Except String (List Store))) 0 0 2 =
      fetchStoresWithGridSearch (fun _ => (.error "down" : Except String (List Store))) 0 0 2) ∧
    getAllStores (fun _ => (.error "down" : Except String (List Store))) [(0, 0)]
      (fun _ => none) = .error "down" :=
  ⟨probe_failure_scope.1 (fun _ => .error "down") (fun _ => .ok []) 0 0 2
      (fun _ => rfl),
   probe_failure_scope.2 (fun _ => .error "down") [(0, 0)] [] [] (0, 0)
      (fun _ => none) "down" rfl (fun q hq => absurd hq (List.not_mem_nil q))
      rfl⟩

/-- C9 counterexample: a run with two probe coordinates in which only the
first probe fails. The claim says the failure is logged and the run
continues with the next coordinate; instead `getAllStores` aborts the whole
run with the error of the failed probe and returns no record set, although
the second probe (third conjunct) would have succeeded. -/
theorem getAllStores_single_fail_counterexample :
    getAllStores
      (fun p2 => if p2.1 = 0 then (.error "HTTP 500" : Except String (List Store))
        else .ok [mkStore "X" 1 1])
      [(0, 0), (1, 1)] (fun _ => none) = .error "HTTP 500" ∧
    (∀ stores, getAllStores
      (fun p2 => if p2.1 = 0 then (.error "HTTP 500" : Except String (List Store))
        else .ok [mkStore "X" 1 1])
      [(0, 0), (1, 1)] (fun _ => none) ≠ .ok stores) ∧
    (fun (p2 : Rat × Rat) =>
      if p2.1 = 0 then (.error "HTTP 500" : Except String (List Store))
      else .ok [mkStore "X" 1 1]) (1, 1) = .ok [mkStore "X" 1 1] := by
  refine ⟨?_, fun stores => ?_, by norm_num⟩ <;>
    simp [getAllStores, fetchLoop]

theorem shoelaceAbsArea_nonneg (ring : List (Rat × Rat)) :
    0 ≤ shoelaceAbsArea ring :=
  abs_nonneg _

theorem centroidScan_const (ps : List (List (List (Rat × Rat))))
    (b : List (List (Rat × Rat))) (a : Rat)
    (hle : ∀ q ∈ ps, shoelaceAbsArea (q.headD []) ≤ a) :
    ps.foldl (fun best poly =>
      let area := shoelaceAbsArea (poly.headD [])
      if best.2 < area then (poly, area) else best) (b, a) = (b, a) := by
  induction ps with
  | nil => rfl
  | cons q t ih =>
    have hq : ¬ ((b, a).2 < shoelaceAbsArea (q.headD [])) :=
      not_lt.mpr (hle q (by simp))
    simp only [List.foldl_cons, if_neg hq]
    exact ih (fun r hr => hle r (by simp [hr]))

theorem centroidScan_max (target : List (List (Rat × Rat))) :
    ∀ (ps : List (List (List (Rat × Rat)))) (b : List (List (Rat × Rat)))
      (a : Rat),
      target ∈ ps → a < shoelaceAbsArea (target.headD []) →
      (∀ q ∈ ps, q ≠ target →
        shoelaceAbsArea (q.headD []) < shoelaceAbsArea (target.headD [])) →
      ps.foldl (fun best poly =>
        let area := shoelaceAbsArea (poly.headD [])
        if best.2 < area then (poly, area) else best) (b, a) =
        (target, shoelaceAbsArea (target.headD []))
  | [], _, _, ht, _, _ => absurd ht (List.not_mem_nil _)
  | q :: t, b, a, ht, ha, hmax => by
    by_cases hq : q = target
    · subst hq
      simp only [List.foldl_cons, if_pos ha]
      exact centroidScan_const t q (shoelaceAbsArea (q.headD []))
        (fun r hr => by
          by_cases hr2 : r = q
          · exact le_of_eq (by rw [hr2])
          · exact le_of_lt (hmax r (by simp [hr]) hr2))
    · have ht2 : target ∈ t := by
        rcases List.mem_cons.mp ht with h | h
        · exact absurd h.symm hq
        · exact h
      have hqlt := hmax q (by simp) hq
      simp only [List.foldl_cons]
      by_cases hcase : (b, a).2 < shoelaceAbsArea (q.headD [])
      · rw [if_pos hcase]
        exact centroidScan_max target t q (shoelaceAbsArea (q.headD [])) ht2
          hqlt (fun r hr hrne => hmax r (by simp [hr]) hrne)
      · rw [if_neg hcase]
        exact centroidScan_max target t b a ht2 ha
          (fun r hr hrne => hmax r (by simp [hr]) hrne)

/-- C4 amended: for a MultiPolygon whose constituent polygon `target` has
strictly the largest absolute shoelace area, `calculateCentroid` returns
the vertex mean of the first ring of `target`, ignoring all smaller parts
(so a zero-area single-point sliver never determines the result); and for
a single Polygon it returns the mean over the stored ring entries, which
for a closed GeoJSON ring includes the closing duplicate vertex: on the
closed square ring (0,0),(2,0),(2,2),(0,2),(0,0) the result is
(0.8, 0.8), not (1, 1). -/
theorem calculateCentroid_theorem
    (polys : List (List (List (Rat × Rat)))) (target : List (List (Rat × Rat)))
    (htarget : target ∈ polys)
    (hmax : ∀ q ∈ polys, q ≠ target →
      shoelaceAbsArea (q.headD []) < shoelaceAbsArea (target.headD [])) :
    calculateCentroid (.multiPolygon polys) = vertexMean (target.headD []) ∧
    calculateCentroid (.polygon [[(0,0),(2,0),(2,2),(0,2),(0,0)]]) =
      (4/5, 4/5) := by
  constructor
  · by_cases hA : 0 < shoelaceAbsArea (target.headD [])
    · simp only [calculateCentroid]
      rw [centroidScan_max target polys (polys.headD []) 0 htarget hA hmax]
    · have hA0 : shoelaceAbsArea (target.headD []) = 0 :=
        le_antisymm (not_lt.mp hA) (shoelaceAbsArea_nonneg _)
      have hall : ∀ q ∈ polys, q = target := by
        intro q hq
        by_contra hne
        have := hmax q hq hne
        rw [hA0] at this
        exact absurd this (not_lt.mpr (shoelaceAbsArea_nonneg _))
      have hhead : polys.headD [] = target := by
        cases polys with
        | nil => exact absurd htarget (List.not_mem_nil _)
        | cons x t => simpa using hall x (by simp)
      simp only [calculateCentroid]
      rw [centroidScan_const polys (polys.headD []) 0
        (fun q hq => by rw [hall q hq, hA0]), hhead]
  · norm_num [calculateCentroid, vertexMean]

theorem calculateCentroid_theorem_witness :
    (calculateCentroid (.multiPolygon
        [[[(5,5),(5,5),(5,5)]], [[(0,0),(2,0),(2,2),(0,2),(0,0)]]]) =
      vertexMean (([[(0,0),(2,0),(2,2),(0,2),(0,0)]] :
        List (List (Rat × Rat))).headD []) ∧
    calculateCentroid (.polygon [[(0,0),(2,0),(2,2),(0,2),(0,0)]]) =
      (4/5, 4/5)) :=
  calculateCentroid_theorem _ [[(0,0),(2,0),(2,2),(0,2),(0,0)]]
    (by simp)
    (by
      intro q hq hne
      rcases List.mem_cons.mp hq with h | h
      · subst h
        norm_num [shoelaceAbsArea, shoelaceSum, List.rotate]
      · simp only [List.mem_singleton] at h
        exact absurd h hne)

/-- C4 counterexample: on the closed GeoJSON ring of the square with
vertices (0,0),(2,0),(2,2),(0,2) — the first vertex repeated as the final
closing entry, the representation the data model and GeoJSON prescribe and
the WKT parser of the source produces — `calculateCentroid` averages all
five stored entries and returns (0.8, 0.8), not the claimed (1, 1). -/
theorem calculateCentroid_counterexample :
    calculateCentroid (.polygon [[(0,0),(2,0),(2,2),(0,2),(0,0)]]) =
      (4/5, 4/5) ∧
    ((4 : Rat)/5, (4 : Rat)/5) ≠ ((1 : Rat), (1 : Rat)) := by
  constructor
  · norm_num [calculateCentroid, vertexMean]
  · intro h
    have h1 : (4 : Rat) / 5 = 1 := congrArg Prod.fst h
    norm_num at h1

theorem jsMapSet_keys (m : List (String × Store)) (k : String) (v : Store) :
    (jsMapSet m k v).map Prod.fst =
      if m.any (fun kv => kv.1 == k) then m.map Prod.fst
      else m.map Prod.fst ++ [k] := by
  by_cases h : m.any (fun kv => kv.1 == k)
  · simp only [jsMapSet, if_pos h, List.map_map]
    apply List.map_congr_left
    intro kv _
    by_cases hk : kv.1 = k
    · simp [hk]
    · simp [hk]
  · simp [jsMapSet, if_neg h]

theorem not_mem_keys_of_not_any (m : List (String × Store)) (k : String)
    (h : ¬ m.any (fun kv => kv.1 == k) = true) : k ∉ m.map Prod.fst := by
  intro hmem
  rcases List.mem_map.mp hmem with ⟨kv, hkv, hk⟩
  exact h (List.any_eq_true.mpr ⟨kv, hkv, by simp [hk]⟩)

theorem jsMapSet_preserves (m : List (String × Store)) (k : String) (v : Store)
    (hkeys : (m.map Prod.fst).Nodup)
    (hvals : ∀ kv ∈ m, kv.2.map_store_id = kv.1)
    (hv : v.map_store_id = k) :
    ((jsMapSet m k v).map Prod.fst).Nodup ∧
    ∀ kv ∈ jsMapSet m k v, kv.2.map_store_id = kv.1 := by
  constructor
  · rw [jsMapSet_keys]
    by_cases h : m.any (fun kv => kv.1 == k)
    · simpa [h] using hkeys
    · simp only [h, if_false]
      refine List.Nodup.append hkeys (List.nodup_singleton k) ?_
      intro a ha hak
      simp only [List.mem_singleton] at hak
      subst hak
      exact not_mem_keys_of_not_any m _ h ha
  · intro kv hkv
    unfold jsMapSet at hkv
    split at hkv
    · rcases List.mem_map.mp hkv with ⟨kv2, hkv2, hkveq⟩
      by_cases hk : kv2.1 == k
      · rw [if_pos hk] at hkveq
        simp [← hkveq, hv]
      · rw [if_neg hk] at hkveq
        exact hkveq ▸ hvals kv2 hkv2
    · rcases List.mem_append.mp hkv with h | h
      · exact hvals kv h
      · simp only [List.mem_singleton] at h
        simp [h, hv]

theorem dedupFold_preserves :
    ∀ (l : List Store) (m : List (String × Store)),
      (m.map Prod.fst).Nodup →
      (∀ kv ∈ m, kv.2.map_store_id = kv.1) →
      (((l.foldl (fun m2 s =>
          if s.map_store_id == "" then m2 else jsMapSet m2 s.map_store_id s)
          m).map Prod.fst).Nodup ∧
        ∀ kv ∈ l.foldl (fun m2 s =>
          if s.map_store_id == "" then m2 else jsMapSet m2 s.map_store_id s) m,
          kv.2.map_store_id = kv.1)
  | [], m, hkeys, hvals => ⟨hkeys, hvals⟩
  | s :: t, m, hkeys, hvals => by
    simp only [List.foldl_cons]
    by_cases hs : s.map_store_id == ""
    · rw [if_pos hs]
      exact dedupFold_preserves t m hkeys hvals
    · rw [if_neg hs]
      obtain ⟨h1, h2⟩ := jsMapSet_preserves m s.map_store_id s hkeys hvals rfl
      exact dedupFold_preserves t _ h1 h2

theorem assoc_values_ids_nodup (m : List (String × Store))
    (hkeys : (m.map Prod.fst).Nodup)
    (hvals : ∀ kv ∈ m, kv.2.map_store_id = kv.1) :
    ((m.map Prod.snd).map Store.map_store_id).Nodup := by
  rw [List.map_map]
  have : m.map (Store.map_store_id ∘ Prod.snd) = m.map Prod.fst :=
    List.map_congr_left (fun kv hkv => hvals kv hkv)
  rw [this]
  exact hkeys

theorem dedupById_ids_nodup (l : List Store) :
    (((dedupById l).map Prod.snd).map Store.map_store_id).Nodup := by
  obtain ⟨h1, h2⟩ := dedupFold_preserves l [] (by simp) (by simp)
  exact assoc_values_ids_nodup _ h1 h2

theorem mergeDetails_id (details : String → Option StoreDetails) (s : Store) :
    (mergeDetails details s).map_store_id = s.map_store_id := by
  unfold mergeDetails
  cases details s.map_store_id <;> rfl

theorem getAllStores_ids_nodup {E : Type}
    (fetch : Rat × Rat → Except E (List Store)) (points : List (Rat × Rat))
    (details : String → Option StoreDetails) (stores : List Store)
    (h : getAllStores fetch points details = .ok stores) :
    (stores.map Store.map_store_id).Nodup := by
  unfold getAllStores at h
  cases hl : fetchLoop fetch points with
  | error e => rw [hl] at h; exact absurd h (by simp)
  | ok allFetched =>
    rw [hl] at h
    simp only [Except.ok.injEq] at h
    subst h
    rw [List.map_map]
    have hid : ∀ s, (Store.map_store_id ∘ mergeDetails details) s =
        Store.map_store_id s := fun s => mergeDetails_id details s
    rw [List.map_congr_left (fun s _ => hid s)]
    have hsub : List.Sublist
        (filterExcludedStores
          (filterRpayStores ((dedupById allFetched).map Prod.snd)))
        ((dedupById allFetched).map Prod.snd) :=
      (List.filter_sublist _).trans (List.filter_sublist _)
    exact (dedupById_ids_nodup allFetched).sublist (hsub.map _)

theorem bool_not_eq_true {b : Bool} (h : ¬ b = true) : b = false := by
  cases b
  · rfl
  · exact absurd rfl h

theorem beq_swap (a b : String) : (a == b) = (b == a) := by
  cases h : b == a
  · exact beq_eq_false_iff_ne.mpr (fun he => beq_eq_false_iff_ne.mp h he.symm)
  · exact beq_iff_eq.mpr (beq_iff_eq.mp h).symm

theorem lookup_append_assoc (m m2 : List (String × Store)) (k : String) :
    (m ++ m2).lookup k =
      match m.lookup k with
      | some v => some v
      | none => m2.lookup k := by
  induction m with
  | nil => simp
  | cons kv t ih =>
    rcases kv with ⟨k2, v2⟩
    simp only [List.cons_append, List.lookup]
    cases h : k == k2
    · exact ih
    · rfl

theorem lookup_map_update (k : String) (v : Store) :
    ∀ (m : List (String × Store)), m.any (fun kv => kv.1 == k) = true →
      (m.map (fun kv => if kv.1 == k then (k, v) else kv)).lookup k = some v
  | [], h => by simp at h
  | ⟨k2, v2⟩ :: t, h => by
    simp only [List.map_cons]
    cases hk : k2 == k with
    | true =>
      rw [if_pos rfl]
      simp [List.lookup]
    | false =>
      rw [show (if false = true then (k, v) else (k2, v2)) = (k2, v2) from by
        simp]
      have ht : t.any (fun kv => kv.1 == k) = true := by
        simpa [List.any_cons, hk] using h
      have hswap : (k == k2) = false := by rw [beq_swap]; exact hk
      simp only [List.lookup, hswap]
      exact lookup_map_update k v t ht

theorem lookup_none_of_not_any (k : String) :
    ∀ (m : List (String × Store)), m.any (fun kv => kv.1 == k) = false →
      m.lookup k = none
  | [], _ => rfl
  | ⟨k2, v2⟩ :: t, h => by
    simp only [List.any_cons, Bool.or_eq_false_iff] at h
    simp only [List.lookup]
    rw [beq_swap k k2, h.1]
    exact lookup_none_of_not_any k t h.2

theorem lookup_jsMapSet_self (m : List (String × Store)) (k : String)
    (v : Store) : (jsMapSet m k v).lookup k = some v := by
  unfold jsMapSet
  by_cases h : m.any (fun kv => kv.1 == k)
  · rw [if_pos h]
    exact lookup_map_update k v m h
  · rw [if_neg h, lookup_append_assoc,
      lookup_none_of_not_any k m (bool_not_eq_true h)]
    simp [List.lookup]

theorem lookup_map_update_other (k k2 : String) (v : Store)
    (hne : (k == k2) = false) :
    ∀ (m : List (String × Store)),
      (m.map (fun kv => if kv.1 == k then (k, v) else kv)).lookup k2 =
        m.lookup k2
  | [] => rfl
  | ⟨k3, v3⟩ :: t => by
    have hne2 : (k2 == k) = false := by rw [beq_swap]; exact hne
    simp only [List.map_cons]
    cases hk : k3 == k with
    | true =>
      rw [if_pos rfl]
      obtain rfl : k3 = k := eq_of_beq hk
      simp only [List.lookup, hne2]
      exact lookup_map_update_other _ k2 v hne t
    | false =>
      rw [show (if false = true then (k, v) else (k3, v3)) = (k3, v3) from by
        simp]
      simp only [List.lookup]
      cases hk32 : k2 == k3 with
      | true => rfl
      | false => exact lookup_map_update_other k k2 v hne t

theorem lookup_jsMapSet_other (m : List (String × Store)) (k k2 : String)
    (v : Store) (hne : (k == k2) = false) :
    (jsMapSet m k v).lookup k2 = m.lookup k2 := by
  unfold jsMapSet
  by_cases h : m.any (fun kv => kv.1 == k)
  · rw [if_pos h]
    exact lookup_map_update_other k k2 v hne m
  · rw [if_neg h, lookup_append_assoc]
    cases hm : m.lookup k2
    · simp [List.lookup, beq_swap k2 k, hne]
    · rfl

theorem dedupById_lookup_lastWins (l : List Store) (id : String)
    (hid : id ≠ "") :
    (dedupById l).lookup id =
      (l.filter (fun s => s.map_store_id == id)).getLast? := by
  induction l using List.reverseRecOn with
  | nil => rfl
  | append_singleton t s ih =>
    unfold dedupById at ih ⊢
    rw [List.foldl_append, List.foldl_cons, List.foldl_nil, List.filter_append]
    by_cases hs : s.map_store_id == ""
    · rw [if_pos hs]
      have hfs : List.filter (fun s2 => s2.map_store_id == id) [s] = [] := by
        have : (s.map_store_id == id) = false := by
          rw [eq_of_beq hs]
          exact beq_eq_false_iff_ne.mpr (Ne.symm hid)
        simp [List.filter, this]
      rw [hfs, List.append_nil]
      exact ih
    · rw [if_neg hs]
      by_cases hsid : s.map_store_id == id
      · have heq : s.map_store_id = id := eq_of_beq hsid
        rw [heq, lookup_jsMapSet_self]
        have hfs : List.filter (fun s2 => s2.map_store_id == id) [s] = [s] := by
          simp [List.filter, hsid]
        rw [hfs, List.getLast?_concat]
      · rw [lookup_jsMapSet_other _ _ _ _ (by simpa using hsid)]
        have hfs : List.filter (fun s2 => s2.map_store_id == id) [s] = [] := by
          simp [List.filter, Bool.eq_false_iff.mpr hsid]
        rw [hfs, List.append_nil]
        exact ih

theorem lookup_isSome_eq_any (k : String) :
    ∀ (m : List (String × Store)),
      (m.lookup k).isSome = m.any (fun kv => kv.1 == k)
  | [] => rfl
  | ⟨k2, v2⟩ :: t => by
    cases h : k2 == k <;>
      simp [List.lookup, List.any_cons, beq_swap k k2, h,
        lookup_isSome_eq_any k t]

theorem insertIfNew_preserves (m : List (String × Store)) (s : Store)
    (hkeys : (m.map Prod.fst).Nodup)
    (hvals : ∀ kv ∈ m, kv.2.map_store_id = kv.1) :
    ((insertIfNew m s).map Prod.fst).Nodup ∧
    ∀ kv ∈ insertIfNew m s, kv.2.map_store_id = kv.1 := by
  unfold insertIfNew
  by_cases h : m.any (fun kv => kv.1 == s.map_store_id)
  · rw [if_pos h]
    exact ⟨hkeys, hvals⟩
  · rw [if_neg h]
    constructor
    · rw [List.map_append]
      refine List.Nodup.append hkeys (List.nodup_singleton _) ?_
      intro a ha hak
      simp only [List.map_cons, List.map_nil, List.mem_singleton] at hak
      subst hak
      exact not_mem_keys_of_not_any m _ h ha
    · intro kv hkv
      rcases List.mem_append.mp hkv with h2 | h2
      · exact hvals kv h2
      · simp only [List.mem_singleton] at h2
        simp [h2]

theorem insertAllFold_preserves :
    ∀ (l : List Store) (m : List (String × Store)),
      (m.map Prod.fst).Nodup →
      (∀ kv ∈ m, kv.2.map_store_id = kv.1) →
      (((l.foldl insertIfNew m).map Prod.fst).Nodup ∧
        ∀ kv ∈ l.foldl insertIfNew m, kv.2.map_store_id = kv.1)
  | [], _, hkeys, hvals => ⟨hkeys, hvals⟩
  | s :: t, m, hkeys, hvals => by
    rw [List.foldl_cons]
    obtain ⟨h1, h2⟩ := insertIfNew_preserves m s hkeys hvals
    exact insertAllFold_preserves t _ h1 h2

theorem lookup_insertIfNew (m : List (String × Store)) (s : Store)
    (k : String) :
    (insertIfNew m s).lookup k =
      match m.lookup k with
      | some v => some v
      | none => if s.map_store_id == k then some s else none := by
  unfold insertIfNew
  by_cases h : m.any (fun kv => kv.1 == s.map_store_id)
  · rw [if_pos h]
    cases hm : m.lookup k
    · by_cases hsk : s.map_store_id == k
      · exfalso
        have hiso := lookup_isSome_eq_any k m
        rw [hm, ← eq_of_beq hsk] at hiso
        rw [h] at hiso
        simp at hiso
      · simp [hm, hsk]
    · simp [hm]
  · rw [if_neg h, lookup_append_assoc]
    cases hm : m.lookup k
    · simp only
      cases hsk : s.map_store_id == k <;>
        simp [List.lookup, beq_swap k s.map_store_id, hsk]
    · rfl

theorem lookup_insertAllFold :
    ∀ (l : List Store) (m : List (String × Store)) (k : String),
      (l.foldl insertIfNew m).lookup k =
        match m.lookup k with
        | some v => some v
        | none => l.find? (fun s => s.map_store_id == k)
  | [], m, k => by cases hm : m.lookup k <;> simp [hm]
  | s :: t, m, k => by
    rw [List.foldl_cons, lookup_insertAllFold t _ k, lookup_insertIfNew]
    cases hm : m.lookup k
    · simp only
      cases hsk : s.map_store_id == k
      · simp [List.find?_cons, hsk]
      · simp [List.find?_cons, hsk]
    · rfl

theorem lookup_of_mem_of_nodup :
    ∀ (m : List (String × Store)) (kv : String × Store), kv ∈ m →
      (m.map Prod.fst).Nodup → m.lookup kv.1 = some kv.2
  | [], kv, hm, _ => absurd hm (List.not_mem_nil kv)
  | ⟨k2, v2⟩ :: t, kv, hm, hnd => by
    rcases List.mem_cons.mp hm with h | h
    · subst h
      simp [List.lookup]
    · have hk2 : (kv.1 == k2) = false := by
        apply beq_eq_false_iff_ne.mpr
        intro heq
        have hmem : kv.1 ∈ t.map Prod.fst := List.mem_map.mpr ⟨kv, h, rfl⟩
        rw [heq] at hmem
        exact (List.nodup_cons.mp (by simpa using hnd)).1 hmem
      simp only [List.lookup, hk2]
      exact lookup_of_mem_of_nodup t kv h
        (List.nodup_cons.mp (by simpa using hnd)).2

theorem hexGridAggregate_eq_insertAll {E : Type}
    (fetch : ℝ × ℝ → Except E (List Store)) :
    ∀ (pts : List (ℝ × ℝ)) (m : List (String × Store)),
      pts.foldl (probeStep fetch) m =
      (hexGridSuccessRecords fetch pts).foldl insertIfNew m
  | [], _ => rfl
  | p :: t, m => by
    simp only [List.foldl_cons, hexGridSuccessRecords, List.flatMap_cons,
      probeStep]
    cases hf : fetch p with
    | error e =>
      simp only [hf, List.nil_append]
      exact hexGridAggregate_eq_insertAll fetch t m
    | ok stores =>
      simp only [hf, List.foldl_append]
      exact hexGridAggregate_eq_insertAll fetch t _

theorem hexGridAggregate_ids_nodup {E : Type}
    (fetch : ℝ × ℝ → Except E (List Store)) (pts : List (ℝ × ℝ)) :
    ((hexGridAggregate fetch pts).map Store.map_store_id).Nodup := by
  unfold hexGridAggregate
  rw [hexGridAggregate_eq_insertAll]
  obtain ⟨h1, h2⟩ := insertAllFold_preserves
    (hexGridSuccessRecords fetch pts) [] (by simp) (by simp)
  exact assoc_values_ids_nodup _ h1 h2

theorem hexGridAggregate_first_wins {E : Type}
    (fetch : ℝ × ℝ → Except E (List Store)) (pts : List (ℝ × ℝ)) (s : Store)
    (hs : s ∈ hexGridAggregate fetch pts) :
    (hexGridSuccessRecords fetch pts).find?
      (fun t => t.map_store_id == s.map_store_id) = some s := by
  unfold hexGridAggregate at hs
  rw [hexGridAggregate_eq_insertAll] at hs
  rcases List.mem_map.mp hs with ⟨kv, hkv, hkvs⟩
  obtain ⟨h1, h2⟩ := insertAllFold_preserves
    (hexGridSuccessRecords fetch pts) [] (by simp) (by simp)
  have hlk := lookup_of_mem_of_nodup _ kv hkv h1
  have hfind := lookup_insertAllFold (hexGridSuccessRecords fetch pts) [] kv.1
  rw [hlk] at hfind
  simp only [List.lookup_nil] at hfind
  have hk : kv.1 = s.map_store_id := by
    rw [← hkvs]
    exact (h2 kv hkv).symm
  rw [hk] at hfind
  rw [← hfind, hkvs]

/-- C1 amended: every aggregator returns a record set with pairwise
distinct identities (conjuncts 1 and 3), but the overwrite rule is not
uniformly last-seen-wins: the dedup map of `getAllStores` resolves every
non-falsy identity to the LAST fetched record carrying it, in probe order
(conjunct 2), while the hexagonal-grid aggregator keeps for every returned
record the FIRST record of the probe stream carrying its identity
(conjunct 4, first seen wins). -/
theorem aggregator_dedup_theorem :
    (∀ (E : Type) (fetch : Rat × Rat → Except E (List Store))
        (points : List (Rat × Rat)) (details : String → Option StoreDetails)
        (stores : List Store),
      getAllStores fetch points details = .ok stores →
      (stores.map Store.map_store_id).Nodup) ∧
    (∀ (l : List Store) (id : String), id ≠ "" →
      (dedupById l).lookup id =
        (l.filter (fun s => s.map_store_id == id)).getLast?) ∧
    (∀ (E : Type) (fetch : ℝ × ℝ → Except E (List Store))
        (pts : List (ℝ × ℝ)),
      ((hexGridAggregate fetch pts).map Store.map_store_id).Nodup) ∧
    (∀ (E : Type) (fetch : ℝ × ℝ → Except E (List Store))
        (pts : List (ℝ × ℝ)) (s : Store),
      s ∈ hexGridAggregate fetch pts →
      (hexGridSuccessRecords fetch pts).find?
        (fun t => t.map_store_id == s.map_store_id) = some s) :=
  ⟨fun _ fetch points details stores h =>
      getAllStores_ids_nodup fetch points details stores h,
   fun l id hid => dedupById_lookup_lastWins l id hid,
   fun _ fetch pts => hexGridAggregate_ids_nodup fetch pts,
   fun _ fetch pts s hs => hexGridAggregate_first_wins fetch pts s hs⟩

theorem aggregator_dedup_theorem_witness :
    (([storeX1].map Store.map_store_id).Nodup ∧
      (dedupById [storeX1, storeX2]).lookup "X" =
        ([storeX1, storeX2].filter
          (fun s => s.map_store_id == "X")).getLast? ∧
      ((hexGridAggregate
          (fun _ => (.ok [storeX1] : Except String (List Store)))
          [((0 : ℝ), (0 : ℝ))]).map Store.map_store_id).Nodup ∧
      (hexGridSuccessRecords
          (fun _ => (.ok [storeX1] : Except String (List Store)))
          [((0 : ℝ), (0 : ℝ))]).find?
        (fun t => t.map_store_id == storeX1.map_store_id) = some storeX1) :=
  ⟨aggregator_dedup_theorem.1 String (fun _ => .ok [storeX1]) [(0, 0)]
      (fun _ => none) [storeX1] rfl,
   aggregator_dedup_theorem.2.1 [storeX1, storeX2] "X" (by decide),
   aggregator_dedup_theorem.2.2.1 String (fun _ => .ok [storeX1]) [(0, 0)],
   aggregator_dedup_theorem.2.2.2 String (fun _ => .ok [storeX1]) [(0, 0)]
      storeX1 (by simp [hexGridAggregate, probeStep, insertIfNew])⟩

theorem hexCEfold_const :
    ∀ (pts : List (ℝ × ℝ)) (m : List (String × Store)),
      m.any (fun kv => kv.1 == "X") = true →
      pts.foldl (probeStep fetchHexCE) m = m
  | [], _, _ => rfl
  | p :: t, m, hm => by
    have hstep : probeStep fetchHexCE m p = m := by
      have h1 : m.any (fun kv => kv.1 == storeX1.map_store_id) = true := hm
      have h2 : m.any (fun kv => kv.1 == storeX2.map_store_id) = true := hm
      simp only [probeStep, fetchHexCE]
      by_cases hp : p = ((0 : ℝ), (0 : ℝ))
      · rw [if_pos hp]
        simp only [List.foldl_cons, List.foldl_nil, insertIfNew, h1, if_true]
      · rw [if_neg hp]
        simp only [List.foldl_cons, List.foldl_nil, insertIfNew, h2, if_true]
    simp only [List.foldl_cons, hstep]
    exact hexCEfold_const t m hm

/-- C1 counterexample: a hexagonal-grid aggregation over one ring (seven
probes). The centre probe returns storeX1 for identity X; each of the six
ring probes returns the different record storeX2 for the same identity, so
the identity is returned by more than one probe. Last-seen-wins as the
claim states it would keep storeX2; the aggregator keeps storeX1, the
record of the first probe. -/
theorem hexGrid_first_wins_counterexample :
    fetchStoresWithHexagonalGrid fetchHexCE 0 0 1 1 = [storeX1] ∧
    storeX1.map_store_id = storeX2.map_store_id ∧
    storeX1 ≠ storeX2 ∧
    (generateHexagonalGrid 0 0 1 1).length = 7 ∧
    (∀ p : ℝ × ℝ, p ≠ (0, 0) → fetchHexCE p = .ok [storeX2]) ∧
    fetchStoresWithHexagonalGrid fetchHexCE 0 0 1 1 ≠ [storeX2] := by
  have h00 : fetchHexCE (0, 0) = .ok [storeX1] := by
    simp [fetchHexCE]
  have hmain : fetchStoresWithHexagonalGrid fetchHexCE 0 0 1 1 = [storeX1] := by
    unfold fetchStoresWithHexagonalGrid hexGridAggregate generateHexagonalGrid
    simp only [List.foldl_cons, probeStep, h00, List.foldl_nil]
    rw [hexCEfold_const _ (insertIfNew [] storeX1) rfl]
    rfl
  refine ⟨hmain, rfl, by decide, ?_, ?_, ?_⟩
  · simp [generateHexagonalGrid, List.length_flatMap, ringWalk_length,
      ringSteps_length]
  · intro p hp
    simp only [fetchHexCE]
    exact if_neg hp
  · rw [hmain]
    intro h
    have := List.head_eq_of_cons_eq h
    exact absurd this (by decide)

theorem isFirstMin_unique {α : Type} [LinearOrder α] (d : Store → α)
    (l : List Store) (i1 i2 : Nat)
    (h1 : IsFirstMin d l i1) (h2 : IsFirstMin d l i2) : i1 = i2 := by
  obtain ⟨hi1, hmin1, hfst1⟩ := h1
  obtain ⟨hi2, hmin2, hfst2⟩ := h2
  rcases lt_trichotomy i1 i2 with h | h | h
  · exact absurd
      (le_antisymm (not_lt.mp (hmin1 i2 hi2)) (not_lt.mp (hmin2 i1 hi1)))
      (hfst2 i1 h)
  · exact h
  · exact absurd
      (le_antisymm (not_lt.mp (hmin2 i1 hi1)) (not_lt.mp (hmin1 i2 hi2)))
      (hfst1 i2 h)

theorem specPickIdx_isFirstMin {α : Type} [LinearOrder α] (d : Store → α)
    (l : List Store) (hl : l ≠ []) : IsFirstMin d l (specPickIdx d l) := by
  cases hargmin : l.argmin d with
  | none => exact absurd (List.argmin_eq_none.mp hargmin) hl
  | some m =>
    have hmem : m ∈ l := List.argmin_mem hargmin
    have hle : ∀ a ∈ l, d m ≤ d a := fun a ha =>
      List.le_of_mem_argmin ha hargmin
    have hex : ∃ x ∈ l,
        (fun s => l.all fun t => ! decide (d t < d s)) x = true := by
      refine ⟨m, hmem, ?_⟩
      simp only [List.all_eq_true, Bool.not_eq_true', decide_eq_false_iff_not]
      intro t ht
      exact not_lt.mpr (hle t ht)
    have hlt : specPickIdx d l < l.length := by
      unfold specPickIdx
      exact List.findIdx_lt_length_of_exists hex
    have hminMem : ∀ t ∈ l, ¬ d t < d (l.get ⟨specPickIdx d l, hlt⟩) := by
      have hp := @List.findIdx_getElem _
        (fun s => l.all fun t => ! decide (d t < d s)) l
        (by unfold specPickIdx at hlt; exact hlt)
      simp only [List.all_eq_true, Bool.not_eq_true',
        decide_eq_false_iff_not] at hp
      intro t ht
      have := hp t ht
      simpa [List.get_eq_getElem, specPickIdx] using this
    have hmin : ∀ j (hj : j < l.length),
        ¬ d (l.get ⟨j, hj⟩) < d (l.get ⟨specPickIdx d l, hlt⟩) := by
      intro j hj
      exact hminMem (l.get ⟨j, hj⟩) (l.get_mem j hj)
    refine ⟨hlt, hmin, ?_⟩
    intro j hj
    have hj2 : j < l.length := Nat.lt_trans hj hlt
    have hpj := @List.not_of_lt_findIdx _
      (fun s => l.all fun t => ! decide (d t < d s)) l j
      (by unfold specPickIdx at hj; exact hj)
    simp only [List.all_eq_false, Bool.not_eq_true', Bool.not_eq_false,
      decide_eq_true_eq] at hpj
    obtain ⟨t, ht, hlt2⟩ := hpj
    intro heq
    apply hminMem t ht
    rw [← heq]
    simpa [List.get_eq_getElem] using hlt2

theorem scanFrom_isFirstMin {α : Type} [LinearOrder α] (d : Store → α) :
    ∀ (t pre : List Store) (best : α) (bestIdx : Nat)
      (hpre : bestIdx < pre.length)
      (hval : d (pre.get ⟨bestIdx, hpre⟩) = best)
      (hmin : ∀ j (hj : j < pre.length), ¬ d (pre.get ⟨j, hj⟩) < best)
      (hfst : ∀ j (hj : j < bestIdx),
        d (pre.get ⟨j, Nat.lt_trans hj hpre⟩) ≠ best),
      IsFirstMin d (pre ++ t) (scanFrom d best bestIdx pre.length t)
  | [], pre, best, bestIdx, hpre, hval, hmin, hfst => by
    have hbase : IsFirstMin d pre bestIdx := by
      refine ⟨hpre, ?_, ?_⟩
      · intro j hj
        rw [hval]
        exact hmin j hj
      · intro j hj
        rw [hval]
        exact hfst j hj
    simpa [scanFrom] using hbase
  | s :: t, pre, best, bestIdx, hpre, hval, hmin, hfst => by
    rw [List.append_cons]
    have hpre2 : pre.length < (pre ++ [s]).length := by simp
    have hget : (pre ++ [s]).get ⟨pre.length, hpre2⟩ = s := by
      rw [List.get_eq_getElem]
      exact List.getElem_concat_length pre s pre.length rfl _
    have hgetleft : ∀ j (hj2 : j < pre.length),
        (pre ++ [s]).get ⟨j, by simp; omega⟩ = pre.get ⟨j, hj2⟩ := by
      intro j hj2
      rw [List.get_eq_getElem, List.get_eq_getElem]
      exact List.getElem_append_left hj2
    by_cases hlt : d s < best
    · rw [show scanFrom d best bestIdx pre.length (s :: t) =
          scanFrom d (d s) pre.length (pre.length + 1) t from by
        simp [scanFrom, hlt]]
      have hval2 : d ((pre ++ [s]).get ⟨pre.length, hpre2⟩) = d s := by
        rw [hget]
      have hmin2 : ∀ j (hj : j < (pre ++ [s]).length),
          ¬ d ((pre ++ [s]).get ⟨j, hj⟩) < d s := by
        intro j hj
        rcases Nat.lt_or_ge j pre.length with hj2 | hj2
        · rw [hgetleft j hj2]
          intro hcon
          exact hmin j hj2 (lt_trans hcon hlt)
        · have hjeq : j = pre.length := by simp at hj; omega
          subst hjeq
          have : (pre ++ [s]).get ⟨pre.length, hj⟩ = s := hget
          rw [this]
          exact lt_irrefl _
      have hfst2 : ∀ j (hj : j < pre.length),
          d ((pre ++ [s]).get ⟨j, Nat.lt_trans hj hpre2⟩) ≠ d s := by
        intro j hj
        rw [hgetleft j hj]
        intro heq
        have hge := not_lt.mp (hmin j hj)
        rw [heq] at hge
        exact absurd hlt (not_lt.mpr hge)
      have happly := scanFrom_isFirstMin d t (pre ++ [s]) (d s) pre.length
        hpre2 hval2 hmin2 hfst2
      simpa using happly
    · rw [show scanFrom d best bestIdx pre.length (s :: t) =
          scanFrom d best bestIdx (pre.length + 1) t from by
        simp [scanFrom, hlt]]
      have hpre3 : bestIdx < (pre ++ [s]).length := by simp; omega
      have hval2 : d ((pre ++ [s]).get ⟨bestIdx, hpre3⟩) = best := by
        rw [hgetleft bestIdx hpre]
        exact hval
      have hmin2 : ∀ j (hj : j < (pre ++ [s]).length),
          ¬ d ((pre ++ [s]).get ⟨j, hj⟩) < best := by
        intro j hj
        rcases Nat.lt_or_ge j pre.length with hj2 | hj2
        · rw [hgetleft j hj2]
          exact hmin j hj2
        · have hjeq : j = pre.length := by simp at hj; omega
          subst hjeq
          have : (pre ++ [s]).get ⟨pre.length, hj⟩ = s := hget
          rw [this]
          exact hlt
      have hfst2 : ∀ j (hj : j < bestIdx),
          d ((pre ++ [s]).get ⟨j, Nat.lt_trans hj hpre3⟩) ≠ best := by
        intro j hj
        rw [hgetleft j (Nat.lt_trans hj hpre)]
        exact hfst j hj
      have happly := scanFrom_isFirstMin d t (pre ++ [s]) best bestIdx
        hpre3 hval2 hmin2 hfst2
      simpa using happly

theorem foldl_nearestStep_eq_scanFrom {α : Type} [LinearOrder α]
    (d : Store → α) :
    ∀ (u : List Store) (idx bestIdx : Nat) (best : α),
      (u.foldl (nearestStep d) (idx, bestIdx, some best)).2.1 =
        scanFrom d best bestIdx idx u
  | [], _, _, _ => rfl
  | s :: u, idx, bestIdx, best => by
    simp only [List.foldl_cons, nearestStep, scanFrom]
    by_cases h : d s < best
    · rw [if_pos h, if_pos h]
      exact foldl_nearestStep_eq_scanFrom d u (idx + 1) idx (d s)
    · rw [if_neg h, if_neg h]
      exact foldl_nearestStep_eq_scanFrom d u (idx + 1) bestIdx best

theorem nearestScan_cons_eq_scanFrom {α : Type} [LinearOrder α]
    (d : Store → α) (s : Store) (t : List Store) :
    nearestScan d (s :: t) = scanFrom d (d s) 0 1 t := by
  unfold nearestScan
  simp only [List.foldl_cons, nearestStep]
  exact foldl_nearestStep_eq_scanFrom d t 1 0 (d s)

theorem nearestScan_isFirstMin {α : Type} [LinearOrder α] (d : Store → α)
    (s : Store) (t : List Store) :
    IsFirstMin d (s :: t) (nearestScan d (s :: t)) := by
  rw [nearestScan_cons_eq_scanFrom]
  have hmin1 : ∀ j (hj : j < ([s] : List Store).length),
      ¬ d (([s] : List Store).get ⟨j, hj⟩) < d s := by
    intro j hj
    have : j = 0 := by simpa using hj
    subst this
    exact lt_irrefl _
  have hfst1 : ∀ j (hj : j < 0),
      d (([s] : List Store).get ⟨j, Nat.lt_trans hj (by simp)⟩) ≠ d s := by
    intro j hj
    exact absurd hj (Nat.not_lt_zero j)
  have happly := scanFrom_isFirstMin d t [s] (d s) 0 (by simp) rfl hmin1 hfst1
  simpa using happly

theorem nearestScan_eq_specPickIdx {α : Type} [LinearOrder α]
    (d : Store → α) (l : List Store) :
    nearestScan d l = specPickIdx d l := by
  cases l with
  | nil => rfl
  | cons s t =>
    exact isFirstMin_unique d (s :: t) _ _ (nearestScan_isFirstMin d s t)
      (specPickIdx_isFirstMin d (s :: t) (by simp))

theorem nnLoop_eq_specLoop {α : Type} [LinearOrder α]
    (dist : Rat → Rat → Rat → Rat → α) :
    ∀ (fuel : Nat) (cur : Rat × Rat) (l : List Store),
      nnLoop dist fuel cur l = specLoop dist fuel cur l
  | 0, _, _ => rfl
  | fuel + 1, cur, l => by
    simp only [nnLoop, specLoop, nearestScan_eq_specPickIdx]
    cases h : l[specPickIdx
        (fun s => dist cur.1 cur.2 s.latitude s.longitude) l]? with
    | none => rfl
    | some s =>
      show s :: nnLoop dist fuel (s.latitude, s.longitude)
          (l.eraseIdx (specPickIdx
            (fun s2 => dist cur.1 cur.2 s2.latitude s2.longitude) l)) =
        s :: specLoop dist fuel (s.latitude, s.longitude)
          (l.eraseIdx (specPickIdx
            (fun s2 => dist cur.1 cur.2 s2.latitude s2.longitude) l))
      rw [nnLoop_eq_specLoop dist fuel]

theorem get_cons_eraseIdx_perm :
    ∀ (l : List Store) (i : Nat) (hi : i < l.length),
      (l.get ⟨i, hi⟩ :: l.eraseIdx i).Perm l
  | _ :: _, 0, _ => List.Perm.refl _
  | a :: t, i + 1, hi => by
    have ih := get_cons_eraseIdx_perm t i (Nat.lt_of_succ_lt_succ hi)
    show (t.get ⟨i, _⟩ :: a :: t.eraseIdx i).Perm (a :: t)
    exact (List.Perm.swap a _ _).trans (ih.cons a)

theorem nnLoop_perm {α : Type} [LinearOrder α]
    (dist : Rat → Rat → Rat → Rat → α) :
    ∀ (fuel : Nat) (l : List Store) (cur : Rat × Rat), l.length ≤ fuel →
      (nnLoop dist fuel cur l).Perm l
  | 0, l, _, h => by
    have : l = [] := List.length_eq_zero.mp (Nat.le_zero.mp h)
    subst this
    exact List.Perm.refl _
  | fuel + 1, l, cur, h => by
    cases l with
    | nil => exact List.Perm.refl _
    | cons s t =>
      obtain ⟨hi, -, -⟩ := nearestScan_isFirstMin
        (fun st => dist cur.1 cur.2 st.latitude st.longitude) s t
      have hget : (s :: t)[nearestScan
          (fun st => dist cur.1 cur.2 st.latitude st.longitude) (s :: t)]? =
          some ((s :: t).get ⟨nearestScan
            (fun st => dist cur.1 cur.2 st.latitude st.longitude) (s :: t),
            hi⟩) := by
        rw [List.getElem?_eq_getElem hi, List.get_eq_getElem]
      simp only [nnLoop, hget]
      have hlen : (((s :: t)).eraseIdx (nearestScan
          (fun st => dist cur.1 cur.2 st.latitude st.longitude)
          (s :: t))).length ≤ fuel := by
        rw [List.length_eraseIdx, if_pos hi]
        simp only [List.length_cons] at h ⊢
        omega
      exact ((nnLoop_perm dist fuel _ _ hlen).cons _).trans
        (get_cons_eraseIdx_perm (s :: t) _ hi)

theorem orderStoresNearestNeighbor_perm {α : Type} [LinearOrder α]
    (dist : Rat → Rat → Rat → Rat → α) (stores : List Store)
    (startLat startLng : Option Rat) :
    (orderStoresNearestNeighbor dist stores startLat startLng).Perm stores := by
  cases stores with
  | nil => exact List.Perm.refl _
  | cons s rest =>
    cases rest with
    | nil => exact List.Perm.refl _
    | cons s2 rest2 =>
      by_cases htr : (jsTruthy startLat && jsTruthy startLng) = true
      · simp only [orderStoresNearestNeighbor, if_pos htr]
        exact nnLoop_perm dist _ _ _ (le_refl _)
      · simp only [orderStoresNearestNeighbor, if_neg htr]
        exact (nnLoop_perm dist _ _ _ (le_refl _)).cons s

theorem specLoop_nil {α : Type} [LinearOrder α]
    (dist : Rat → Rat → Rat → Rat → α) (fuel : Nat) (cur : Rat × Rat) :
    specLoop dist fuel cur [] = [] := by
  cases fuel <;> rfl

theorem specLoop_singleton {α : Type} [LinearOrder α]
    (dist : Rat → Rat → Rat → Rat → α) (fuel : Nat) (cur : Rat × Rat)
    (s : Store) : specLoop dist (fuel + 1) cur [s] = [s] := by
  have hpick : specPickIdx
      (fun st => dist cur.1 cur.2 st.latitude st.longitude) [s] = 0 := by
    unfold specPickIdx
    simp [List.findIdx_cons, List.all_cons, decide_eq_false (lt_irrefl _)]
  simp only [specLoop, hpick]
  simp [specLoop_nil, List.eraseIdx]

theorem orderStores_eq_greedyTourSpec {α : Type} [LinearOrder α]
    (dist : Rat → Rat → Rat → Rat → α) (stores : List Store)
    (startLat startLng : Option Rat) :
    orderStoresNearestNeighbor dist stores startLat startLng =
      greedyTourSpec dist stores (codeStart startLat startLng) := by
  cases stores with
  | nil =>
    cases htr : (jsTruthy startLat && jsTruthy startLng) <;>
      simp [orderStoresNearestNeighbor, greedyTourSpec, codeStart, htr,
        specLoop_nil]
  | cons s rest =>
    cases rest with
    | nil =>
      cases htr : (jsTruthy startLat && jsTruthy startLng)
      · simp [orderStoresNearestNeighbor, greedyTourSpec, codeStart, htr,
          specLoop_nil]
      · simp [orderStoresNearestNeighbor, greedyTourSpec, codeStart, htr,
          specLoop_singleton]
    | cons s2 rest2 =>
      by_cases htr : (jsTruthy startLat && jsTruthy startLng) = true
      · simp only [orderStoresNearestNeighbor, codeStart, if_pos htr,
          greedyTourSpec]
        have hLat : jsTruthy startLat = true ∧ jsTruthy startLng = true := by
          simpa [Bool.and_eq_true] using htr
        obtain ⟨h1, h2⟩ := hLat
        have e1 : jsOr startLat s.latitude = startLat.getD 0 := by
          cases startLat with
          | none => simp [jsTruthy] at h1
          | some v =>
            have hv : v ≠ 0 := by simpa [jsTruthy] using h1
            simp [jsOr, hv]
        have e2 : jsOr startLng s.longitude = startLng.getD 0 := by
          cases startLng with
          | none => simp [jsTruthy] at h2
          | some v =>
            have hv : v ≠ 0 := by simpa [jsTruthy] using h2
            simp [jsOr, hv]
        rw [e1, e2, nnLoop_eq_specLoop]
      · simp only [orderStoresNearestNeighbor, codeStart, if_neg htr,
          greedyTourSpec]
        rw [nnLoop_eq_specLoop]

/-- C3 amended: the Tour Builder returns a permutation of its input (each
identity exactly once when the input identities are distinct), computed by
greedy nearest neighbour over the haversine distance with Earth radius
6371 km, distance ties breaking to the earliest record in input order; the
tour starts from the supplied start coordinate ONLY when both start
components are truthy: a missing start, and equally a supplied start
component equal to 0 (the JS falsiness test in the source), make the tour
start at the first input record instead. -/
theorem orderStoresNearestNeighbor_theorem (stores : List Store)
    (startLat startLng : Option Rat)
    (hids : (stores.map Store.map_store_id).Nodup) :
    (orderStoresNearestNeighbor calculateDistance stores startLat
        startLng).Perm stores ∧
    ((orderStoresNearestNeighbor calculateDistance stores startLat
        startLng).map Store.map_store_id).Nodup ∧
    orderStoresNearestNeighbor calculateDistance stores startLat startLng =
      greedyTourSpec calculateDistance stores (codeStart startLat startLng) := by
  have hperm := orderStoresNearestNeighbor_perm calculateDistance stores
    startLat startLng
  exact ⟨hperm, ((hperm.map Store.map_store_id).nodup_iff).mpr hids,
    orderStores_eq_greedyTourSpec calculateDistance stores startLat startLng⟩

theorem orderStoresNearestNeighbor_theorem_witness :
    ((orderStoresNearestNeighbor calculateDistance [storeA, storeB] (some 0)
        (some 139)).Perm [storeA, storeB] ∧
      ((orderStoresNearestNeighbor calculateDistance [storeA, storeB] (some 0)
        (some 139)).map Store.map_store_id).Nodup ∧
      orderStoresNearestNeighbor calculateDistance [storeA, storeB] (some 0)
          (some 139) =
        greedyTourSpec calculateDistance [storeA, storeB]
          (codeStart (some 0) (some 139))) :=
  orderStoresNearestNeighbor_theorem [storeA, storeB] (some 0) (some 139)
    (by decide)

theorem calculateDistance_same_point : calculateDistance 0 139 0 139 = 0 := by
  unfold calculateDistance atan2
  norm_num [Real.sin_zero, Real.sqrt_zero, Real.sqrt_one, Real.arctan_zero]

theorem calculateDistance_equator_pos :
    0 < calculateDistance 0 139 10 139 := by
  have hpi := Real.pi_pos
  have h180 : calculateDistance 0 139 10 139 =
      6371 * (2 * atan2
        (Real.sqrt (Real.sin (10 * Real.pi / 180 / 2) *
          Real.sin (10 * Real.pi / 180 / 2)))
        (Real.sqrt (1 - Real.sin (10 * Real.pi / 180 / 2) *
          Real.sin (10 * Real.pi / 180 / 2)))) := by
    unfold calculateDistance
    norm_num
  rw [h180]
  set θ : ℝ := 10 * Real.pi / 180 / 2 with hθ
  have hθpos : 0 < θ := by rw [hθ]; positivity
  have hθltpi2 : θ < Real.pi / 2 := by rw [hθ]; nlinarith
  have hsin : 0 < Real.sin θ :=
    Real.sin_pos_of_pos_of_lt_pi hθpos (by nlinarith)
  have hcos : 0 < Real.cos θ :=
    Real.cos_pos_of_mem_Ioo ⟨by nlinarith, hθltpi2⟩
  have hy : 0 < Real.sqrt (Real.sin θ * Real.sin θ) := by
    rw [Real.sqrt_mul_self hsin.le]
    exact hsin
  have hsq2 : 0 < 1 - Real.sin θ * Real.sin θ := by
    nlinarith [Real.sin_sq_add_cos_sq θ]
  have hx : 0 < Real.sqrt (1 - Real.sin θ * Real.sin θ) :=
    Real.sqrt_pos.mpr hsq2
  have hatan : 0 < atan2 (Real.sqrt (Real.sin θ * Real.sin θ))
      (Real.sqrt (1 - Real.sin θ * Real.sin θ)) := by
    unfold atan2
    rw [if_pos hx]
    have hq : 0 < Real.sqrt (Real.sin θ * Real.sin θ) /
        Real.sqrt (1 - Real.sin θ * Real.sin θ) := div_pos hy hx
    calc (0 : ℝ) = Real.arctan 0 := Real.arctan_zero.symm
      _ < Real.arctan _ := Real.arctan_strictMono hq
  nlinarith [hatan]

theorem orderStores_counterexample :
    orderStoresNearestNeighbor calculateDistance [storeA, storeB] (some 0)
        (some 139) = [storeA, storeB] ∧
    greedyTourSpec calculateDistance [storeA, storeB]
        (claimStart (some 0) (some 139)) = [storeB, storeA] ∧
    orderStoresNearestNeighbor calculateDistance [storeA, storeB] (some 0)
        (some 139) ≠
      greedyTourSpec calculateDistance [storeA, storeB]
        (claimStart (some 0) (some 139)) := by
  have h0 : calculateDistance 0 139 0 139 = 0 := calculateDistance_same_point
  have hpos : 0 < calculateDistance 0 139 10 139 := calculateDistance_equator_pos
  have hd1 : decide (calculateDistance 0 139 0 139 <
      calculateDistance 0 139 10 139) = true := by
    rw [decide_eq_true_eq, h0]; exact hpos
  have hd2 : decide (calculateDistance 0 139 10 139 <
      calculateDistance 0 139 0 139) = false := by
    rw [decide_eq_false_iff_not, h0]; exact not_lt.mpr hpos.le
  have hd3 : decide (calculateDistance 0 139 10 139 <
      calculateDistance 0 139 10 139) = false := by
    rw [decide_eq_false_iff_not]; exact lt_irrefl _
  have hd4 : decide (calculateDistance 0 139 0 139 <
      calculateDistance 0 139 0 139) = false := by
    rw [decide_eq_false_iff_not]; exact lt_irrefl _
  have hcode : orderStoresNearestNeighbor calculateDistance [storeA, storeB]
      (some 0) (some 139) = [storeA, storeB] := by
    have hfalse : (jsTruthy (some 0) && jsTruthy (some 139)) = false := by
      simp [jsTruthy]
    simp only [orderStoresNearestNeighbor, hfalse, Bool.false_eq_true,
      if_false]
    simp [nnLoop, nearestScan, nearestStep]
  have hspec : greedyTourSpec calculateDistance [storeA, storeB]
      (claimStart (some 0) (some 139)) = [storeB, storeA] := by
    have e1 : claimStart (some (0 : Rat)) (some 139) = some (0, 139) := rfl
    rw [e1]
    simp [greedyTourSpec, specLoop, specPickIdx, List.findIdx_cons,
      storeA, storeB, mkStore, hd1, hd2, hd3, hd4, List.eraseIdx]
  refine ⟨hcode, hspec, ?_⟩
  rw [hcode, hspec]
  simp [storeA, storeB, mkStore]

end Stores
